import Mathlib

/-!
Verification of the event-extraction core of `jupyter_utils` (file
`jupyter_utils/agenda_ecn.py`) against its natural-language specification.

The Python code is shallowly embedded: worksheets become a `Sheet` record
(a total cell-value function plus a list of merged ranges and the iterated
dimensions), instants become integers (minutes), Python exceptions become
`Except String`, and the hardcoded slot/weekday tables become association
lists.  Every definition is written to mirror the corresponding Python
function line by line; string manipulation is re-implemented structurally
over `List Char` so that all definitions reduce inside the kernel.
-/

/-! ### Characters and Python-style string helpers -/

/-- Whitespace characters recognised by Python's `str.split()` / `str.strip()`
and by the regex class `\s` (ASCII range). -/
def pyIsSpace (c : Char) : Bool :=
  c = ' ' || c = '\t' || c = '\n' || c = '\r' || c = Char.ofNat 11 || c = Char.ofNat 12

/-- ASCII letter test (model of `str.isalpha` on the coordinate strings the
code manipulates, which are ASCII). -/
def isAlphaChar (c : Char) : Bool :=
  (65 ≤ c.toNat && c.toNat ≤ 90) || (97 ≤ c.toNat && c.toNat ≤ 122)

/-- ASCII digit test (model of `str.isdigit` on coordinate strings). -/
def isDigitChar (c : Char) : Bool :=
  48 ≤ c.toNat && c.toNat ≤ 57

/-- Substring occurrence test on character lists: Python's `needle in hay`. -/
def hasSubstr (needle : List Char) : List Char → Bool
  | [] => needle.isEmpty
  | c :: rest => needle.isPrefixOf (c :: rest) || hasSubstr needle rest

/-- Python's `needle in hay` on strings (case-sensitive, unanchored). -/
def strContains (hay needle : String) : Bool :=
  hasSubstr needle.data hay.data

/-- Python's `s[:n]` (take the first `n` code points). -/
def takeChars (n : Nat) (s : String) : String :=
  String.mk (s.data.take n)

/-- Python's `s[n:]` (drop the first `n` code points). -/
def dropChars (n : Nat) (s : String) : String :=
  String.mk (s.data.drop n)

/-- Splitting on maximal whitespace runs, dropping empty pieces: the pieces of
Python's `s.split()` as character lists. -/
def splitWSAux : List Char → List (List Char)
  | [] => [[]]
  | c :: rest =>
    let r := splitWSAux rest
    if pyIsSpace c then [] :: r
    else
      match r with
      | h :: t => (c :: h) :: t
      | [] => [[c]]

/-- Python's `s.split()` (split on whitespace runs, no empty tokens). -/
def pySplit (s : String) : List String :=
  ((splitWSAux s.data).filter (fun t => !t.isEmpty)).map String.mk

/-- Python's `s.strip()`. -/
def pyStrip (s : String) : String :=
  String.mk (((s.data.dropWhile pyIsSpace).reverse.dropWhile pyIsSpace).reverse)

/-- Splitting a character list at every occurrence of the character `c`
(Python's `s.split(c)`, keeping empty pieces). -/
def splitOnChar (c : Char) : List Char → List (List Char)
  | [] => [[]]
  | x :: xs =>
    let r := splitOnChar c xs
    if x = c then [] :: r
    else
      match r with
      | h :: t => (x :: h) :: t
      | [] => [[x]]

/-! ### Decimal digits and spreadsheet column letters -/

/-- Fuel-driven decimal digit list of a natural number (most significant
first).  With fuel `0` the single least-significant digit is produced, which
agrees with the intended value whenever `n < 10`. -/
def natDigitsAux : Nat → Nat → List Char
  | 0, n => [Char.ofNat (48 + n % 10)]
  | fuel + 1, n =>
    if n < 10 then [Char.ofNat (48 + n)]
    else natDigitsAux fuel (n / 10) ++ [Char.ofNat (48 + n % 10)]

/-- Decimal representation of a natural number (model of Python's `str(n)` and
of the row part of an `openpyxl` coordinate). -/
def natToS (n : Nat) : String :=
  String.mk (natDigitsAux n n)

/-- Numeric value of a decimal digit list (most significant first). -/
def digitsVal (l : List Char) : Nat :=
  l.foldl (fun acc c => acc * 10 + (c.toNat - 48)) 0

/-- Fuel-driven Excel column letters for a 1-based column index (bijective
base 26: 1 ↦ "A", 26 ↦ "Z", 27 ↦ "AA"). -/
def colLettersAux : Nat → Nat → List Char
  | _, 0 => []
  | 0, _ + 1 => []
  | fuel + 1, n + 1 => colLettersAux fuel (n / 26) ++ [Char.ofNat (65 + n % 26)]

/-- Excel column letters of a 1-based column index (model of
`openpyxl.utils.get_column_letter`). -/
def colLetters (c : Nat) : String :=
  String.mk (colLettersAux c c)

/-- Numeric 1-based value of an Excel column letter list. -/
def letterVal (l : List Char) : Nat :=
  l.foldl (fun acc c => acc * 26 + (c.toNat - 64)) 0

/-- A1-style coordinate of a cell, as `openpyxl` renders `cell.coordinate`
(column letters followed by the 1-based row number). -/
def coordStr (row col : Nat) : String :=
  String.mk (colLettersAux col col ++ natDigitsAux row row)

/-- Parse an A1-style coordinate string into `(column, row)`, as `openpyxl`
does when a worksheet is indexed by `ws["D3"]`; `none` models the coordinate
`ValueError`. -/
def parseCoordL (l : List Char) : Option (Nat × Nat) :=
  let letters := l.takeWhile isAlphaChar
  let rest := l.dropWhile isAlphaChar
  if letters.isEmpty || rest.isEmpty || !rest.all isDigitChar then none
  else some (letterVal letters, digitsVal rest)

/-- Parse a decimal numeral string (model of Python's `int(s)` on the
non-negative inputs the code uses); `none` models `ValueError`. -/
def parseNatS (s : String) : Option Nat :=
  if s.data.isEmpty || !s.data.all isDigitChar then none
  else some (digitsVal s.data)

/-! ### Events and the conflict detector (`find_conflicting_events`) -/

/-- Event record as it flows into `find_conflicting_events`: a summary plus
start/end instants.  Instants are minutes on an absolute timeline, which is
how timezone-aware datetimes compare in Python. -/
structure Ev where
  summary : String
  dtstart : Int
  dtend : Int
deriving DecidableEq, Repr

/-- Conflict record built by `find_conflicting_events` (the six columns of a
row of its output frame). -/
structure Conflict where
  event1_summary : String
  event1_dtstart : Int
  event1_dtend : Int
  event2_summary : String
  event2_dtstart : Int
  event2_dtend : Int
deriving DecidableEq, Repr

/-- Conflict row built from the previous and the current event. -/
def mkConflict (prev cur : Ev) : Conflict :=
  ⟨prev.summary, prev.dtstart, prev.dtend, cur.summary, cur.dtstart, cur.dtend⟩

/-- Insertion step of the start-ascending sort. -/
def insertByStart (e : Ev) : List Ev → List Ev
  | [] => [e]
  | x :: xs => if e.dtstart ≤ x.dtstart then e :: x :: xs else x :: insertByStart e xs

/-- Model of `combined_df.sort_values(by='dtstart')`: a sort of the event list
by ascending `dtstart` (insertion sort, so that it reduces in the kernel). -/
def sortByStart : List Ev → List Ev
  | [] => []
  | x :: xs => insertByStart x (sortByStart xs)

/-- The scan of the sorted frame: `for i in range(1, len)` comparing row `i`
against row `i - 1` and appending a conflict row when
`current['dtstart'] < previous['dtend']`. -/
def scanConflicts : Ev → List Ev → List Conflict
  | _, [] => []
  | prev, cur :: rest =>
    if cur.dtstart < prev.dtend then mkConflict prev cur :: scanConflicts cur rest
    else scanConflicts cur rest

/-- Model of `find_conflicting_events`: sort by `dtstart` ascending, then
record a conflict for every adjacent pair whose current start precedes the
previous end. -/
def find_conflicting_events (combined : List Ev) : List Conflict :=
  match sortByStart combined with
  | [] => []
  | first :: rest => scanConflicts first rest

/-- Specification-side description of the scan: pair each element of the
sorted list with its successor, keep the overlapping pairs, and convert each
to a conflict row. -/
def adjacentConflictSpec (l : List Ev) : List Conflict :=
  ((l.zip l.tail).filter fun pc => decide (pc.2.dtstart < pc.1.dtend)).map
    fun pc => mkConflict pc.1 pc.2

theorem scanConflicts_eq_spec (prev : Ev) (rest : List Ev) :
    scanConflicts prev rest = adjacentConflictSpec (prev :: rest) := by
  induction rest generalizing prev with
  | nil => simp [scanConflicts, adjacentConflictSpec]
  | cons cur tl ih =>
    simp only [scanConflicts, adjacentConflictSpec, List.zip, List.tail]
    by_cases h : cur.dtstart < prev.dtend
    · simp [h, ih cur, adjacentConflictSpec, List.zip]
    · simp [h, ih cur, adjacentConflictSpec, List.zip]

theorem insertByStart_perm (e : Ev) (l : List Ev) :
    List.Perm (insertByStart e l) (e :: l) := by
  induction l with
  | nil => simp [insertByStart]
  | cons x xs ih =>
    simp only [insertByStart]
    by_cases h : e.dtstart ≤ x.dtstart
    · simp [h]
    · simp only [h, if_false]
      exact (ih.cons x).trans (List.Perm.swap e x xs)

theorem sortByStart_perm (l : List Ev) : List.Perm (sortByStart l) l := by
  induction l with
  | nil => simp [sortByStart]
  | cons x xs ih =>
    exact (insertByStart_perm x (sortByStart xs)).trans (ih.cons x)

theorem insertByStart_pairwise (e : Ev) (l : List Ev)
    (h : l.Pairwise (fun a b => a.dtstart ≤ b.dtstart)) :
    (insertByStart e l).Pairwise (fun a b => a.dtstart ≤ b.dtstart) := by
  induction l with
  | nil => simp [insertByStart]
  | cons x xs ih =>
    rcases List.pairwise_cons.mp h with ⟨hx, hxs⟩
    simp only [insertByStart]
    by_cases hc : e.dtstart ≤ x.dtstart
    · rw [if_pos hc]
      refine List.pairwise_cons.mpr ⟨?_, h⟩
      intro b hb
      rcases List.mem_cons.mp hb with rfl | hb
      · exact hc
      · exact le_trans hc (hx b hb)
    · rw [if_neg hc]
      refine List.pairwise_cons.mpr ⟨?_, ih hxs⟩
      intro b hb
      have hb2 := (insertByStart_perm e xs).mem_iff.mp hb
      rcases List.mem_cons.mp hb2 with rfl | hb2
      · omega
      · exact hx b hb2

theorem sortByStart_pairwise (l : List Ev) :
    (sortByStart l).Pairwise (fun a b => a.dtstart ≤ b.dtstart) := by
  induction l with
  | nil => simp [sortByStart]
  | cons x xs ih => exact insertByStart_pairwise x (sortByStart xs) ih

/-- Fixture events for the conflict-detector examples: `[10:00, 11:00)`,
`[10:30, 11:30)`, `[11:00, 12:00)` as minutes of the day. -/
def evA : Ev := ⟨"A", 600, 660⟩

/-- Second fixture event, overlapping `evA`. -/
def evB : Ev := ⟨"B", 630, 690⟩

/-- Third fixture event, touching `evA` at 11:00 without overlap. -/
def evC : Ev := ⟨"C", 660, 720⟩

/-- Fixture triple of pairwise-overlapping events. -/
def evP1 : Ev := ⟨"P1", 600, 700⟩

/-- Second of the pairwise-overlapping fixtures. -/
def evP2 : Ev := ⟨"P2", 630, 730⟩

/-- Third of the pairwise-overlapping fixtures. -/
def evP3 : Ev := ⟨"P3", 640, 740⟩

/-- C1: the conflict detector sorts by start ascending and scans only
adjacent pairs, recording a conflict exactly when the current start is
strictly before the preceding end; two overlapping events yield exactly one
conflict pairing them, touching events yield none, and three
pairwise-overlapping events yield exactly the two adjacent conflicts. -/
theorem conflict_detector_adjacent_scan :
    (∀ evs : List Ev,
        find_conflicting_events evs = adjacentConflictSpec (sortByStart evs)) ∧
    (∀ evs : List Ev,
        (sortByStart evs).Pairwise (fun a b => a.dtstart ≤ b.dtstart) ∧
        List.Perm (sortByStart evs) evs) ∧
    find_conflicting_events [evB, evA] = [mkConflict evA evB] ∧
    find_conflicting_events [evA, evC] = [] ∧
    find_conflicting_events [evP1, evP2, evP3] =
      [mkConflict evP1 evP2, mkConflict evP2 evP3] := by
  refine ⟨?_, ?_, by decide, by decide, by decide⟩
  · intro evs
    unfold find_conflicting_events
    match h : sortByStart evs with
    | [] => simp [adjacentConflictSpec]
    | first :: rest => exact scanConflicts_eq_spec first rest
  · intro evs
    exact ⟨sortByStart_pairwise evs, sortByStart_perm evs⟩

/-! ### Arithmetic facts about digits and column letters -/

theorem char_digit_toNat (d : Nat) (h : d < 10) :
    (Char.ofNat (48 + d)).toNat = 48 + d := by
  interval_cases d <;> decide

theorem char_digit_isDigit (d : Nat) (h : d < 10) :
    isDigitChar (Char.ofNat (48 + d)) = true := by
  interval_cases d <;> decide

theorem char_digit_not_alpha (d : Nat) (h : d < 10) :
    isAlphaChar (Char.ofNat (48 + d)) = false := by
  interval_cases d <;> decide

theorem char_letter_toNat (k : Nat) (h : k < 26) :
    (Char.ofNat (65 + k)).toNat = 65 + k := by
  interval_cases k <;> decide

theorem char_letter_isAlpha (k : Nat) (h : k < 26) :
    isAlphaChar (Char.ofNat (65 + k)) = true := by
  interval_cases k <;> decide

theorem digitsVal_append (l : List Char) (c : Char) :
    digitsVal (l ++ [c]) = digitsVal l * 10 + (c.toNat - 48) := by
  simp [digitsVal, List.foldl_append]

theorem letterVal_append (l : List Char) (c : Char) :
    letterVal (l ++ [c]) = letterVal l * 26 + (c.toNat - 64) := by
  simp [letterVal, List.foldl_append]

theorem natDigitsAux_spec : ∀ fuel n, n ≤ fuel →
    digitsVal (natDigitsAux fuel n) = n ∧
    (∀ c ∈ natDigitsAux fuel n, isDigitChar c = true) ∧
    natDigitsAux fuel n ≠ [] := by
  intro fuel
  induction fuel with
  | zero =>
    intro n hn
    interval_cases n
    exact ⟨by decide, by decide, by decide⟩
  | succ f ih =>
    intro n hn
    by_cases h10 : n < 10
    · refine ⟨?_, ?_, ?_⟩ <;> simp only [natDigitsAux, if_pos h10]
      · simp only [digitsVal, List.foldl_cons, List.foldl_nil,
          char_digit_toNat n h10]
        omega
      · intro c hc
        rcases List.mem_singleton.mp hc with rfl
        exact char_digit_isDigit n h10
      · simp
    · have hdiv : n / 10 ≤ f := by omega
      rcases ih (n / 10) hdiv with ⟨hv, hd, hne⟩
      refine ⟨?_, ?_, ?_⟩ <;> simp only [natDigitsAux, if_neg h10]
      · rw [digitsVal_append, hv, char_digit_toNat (n % 10) (Nat.mod_lt n (by omega))]
        omega
      · intro c hc
        rcases List.mem_append.mp hc with hc | hc
        · exact hd c hc
        · rcases List.mem_singleton.mp hc with rfl
          exact char_digit_isDigit (n % 10) (Nat.mod_lt n (by omega))
      · simp

theorem digitsVal_natToS (n : Nat) : digitsVal (natToS n).data = n :=
  (natDigitsAux_spec n n (le_refl n)).1

theorem natToS_all_digit (n : Nat) :
    ∀ c ∈ (natToS n).data, isDigitChar c = true :=
  (natDigitsAux_spec n n (le_refl n)).2.1

theorem natToS_ne_empty (n : Nat) : (natToS n).data ≠ [] :=
  (natDigitsAux_spec n n (le_refl n)).2.2

theorem natToS_injective : Function.Injective natToS := by
  intro a b h
  have : digitsVal (natToS a).data = digitsVal (natToS b).data := by rw [h]
  rwa [digitsVal_natToS, digitsVal_natToS] at this

theorem colLettersAux_spec : ∀ fuel n, n ≤ fuel →
    letterVal (colLettersAux fuel n) = n ∧
    (∀ c ∈ colLettersAux fuel n, isAlphaChar c = true) ∧
    (1 ≤ n → colLettersAux fuel n ≠ []) := by
  intro fuel
  induction fuel with
  | zero =>
    intro n hn
    interval_cases n
    exact ⟨by decide, by decide, by omega⟩
  | succ f ih =>
    intro n hn
    cases n with
    | zero => exact ⟨rfl, by simp [colLettersAux], fun h => absurd h (by omega)⟩
    | succ m =>
      have hdiv : m / 26 ≤ f := by
        have := Nat.div_le_self m 26
        omega
      rcases ih (m / 26) hdiv with ⟨hv, ha, _⟩
      have hm : m % 26 < 26 := Nat.mod_lt m (by omega)
      refine ⟨?_, ?_, ?_⟩ <;> simp only [colLettersAux]
      · rw [letterVal_append, hv, char_letter_toNat (m % 26) hm]
        omega
      · intro c hc
        rcases List.mem_append.mp hc with hc | hc
        · exact ha c hc
        · rcases List.mem_singleton.mp hc with rfl
          exact char_letter_isAlpha (m % 26) hm
      · simp

theorem letterVal_colLetters (n : Nat) : letterVal (colLetters n).data = n :=
  (colLettersAux_spec n n (le_refl n)).1

theorem colLetters_all_alpha (n : Nat) :
    ∀ c ∈ (colLetters n).data, isAlphaChar c = true :=
  (colLettersAux_spec n n (le_refl n)).2.1

theorem colLetters_ne_empty (n : Nat) (h : 1 ≤ n) : (colLetters n).data ≠ [] :=
  (colLettersAux_spec n n (le_refl n)).2.2 h

theorem digit_not_alpha (c : Char) (h : isDigitChar c = true) :
    isAlphaChar c = false := by
  simp only [isDigitChar, Bool.and_eq_true, decide_eq_true_eq] at h
  simp only [isAlphaChar, Bool.or_eq_false_iff, Bool.and_eq_false_iff,
    decide_eq_false_iff_not, not_le]
  omega

theorem takeWhile_append_all (p : Char → Bool) (l₁ l₂ : List Char)
    (h : ∀ c ∈ l₁, p c = true) :
    (l₁ ++ l₂).takeWhile p = l₁ ++ l₂.takeWhile p ∧
    (l₁ ++ l₂).dropWhile p = l₂.dropWhile p := by
  induction l₁ with
  | nil => simp
  | cons c t ih =>
    have hc : p c = true := h c (List.mem_cons_self c t)
    have ht := ih fun x hx => h x (List.mem_cons_of_mem c hx)
    simp [List.takeWhile, List.dropWhile, hc, ht.1, ht.2]

theorem takeWhile_not_head (p : Char → Bool) (l : List Char)
    (h : ∀ c ∈ l, p c = false) :
    l.takeWhile p = [] ∧ l.dropWhile p = l := by
  cases l with
  | nil => simp
  | cons c t =>
    have hc := h c (List.mem_cons_self c t)
    simp [List.takeWhile, List.dropWhile, hc]

theorem parseCoordL_coordStr (row col : Nat) (hr : 1 ≤ row) (hc : 1 ≤ col) :
    parseCoordL (coordStr row col).data = some (col, row) := by
  have hletters := colLetters_all_alpha col
  have hdigits := natToS_all_digit row
  have hnd : ∀ c ∈ (natToS row).data, isAlphaChar c = false :=
    fun c hcm => digit_not_alpha c (hdigits c hcm)
  have hsplit := takeWhile_append_all isAlphaChar (colLetters col).data
    (natToS row).data hletters
  have hdrop := takeWhile_not_head isAlphaChar (natToS row).data hnd
  have hds : (coordStr row col).data =
      (colLetters col).data ++ (natToS row).data := rfl
  have hval : (natToS row).data.all isDigitChar = true :=
    List.all_eq_true.mpr hdigits
  have hne1 : (colLetters col).data.isEmpty = false := by
    rcases hl : (colLetters col).data with _ | ⟨a, t⟩
    · exact absurd hl (colLetters_ne_empty col hc)
    · rfl
  have hne2 : (natToS row).data.isEmpty = false := by
    rcases hl : (natToS row).data with _ | ⟨a, t⟩
    · exact absurd hl (natToS_ne_empty row)
    · rfl
  simp [parseCoordL, hds, hsplit.1, hsplit.2, hdrop.1, hdrop.2, hne1, hne2,
    hval, letterVal_colLetters, digitsVal_natToS]

theorem coordStr_injective (r1 c1 r2 c2 : Nat)
    (h1r : 1 ≤ r1) (h1c : 1 ≤ c1) (h2r : 1 ≤ r2) (h2c : 1 ≤ c2)
    (h : coordStr r1 c1 = coordStr r2 c2) : r1 = r2 ∧ c1 = c2 := by
  have e1 := parseCoordL_coordStr r1 c1 h1r h1c
  have e2 := parseCoordL_coordStr r2 c2 h2r h2c
  rw [h] at e1
  have h3 := e2.symm.trans e1
  have h4 := Option.some.inj h3
  have hcol : c2 = c1 := congrArg Prod.fst h4
  have hrow : r2 = r1 := congrArg Prod.snd h4
  exact ⟨hrow.symm, hcol.symm⟩

/-! ### Cell values, worksheets, merged ranges -/

/-- Naive (timezone-free) date-time as `openpyxl` yields date cells and as
`datetime.strptime` produces them. -/
structure NaiveDT where
  year : Nat
  month : Nat
  day : Nat
  hour : Nat
  minute : Nat
deriving DecidableEq, Repr

/-- Scalar cell value: `None`, a text, or a date-time. -/
inductive CellVal
  | empty
  | str (s : String)
  | date (d : NaiveDT)
deriving DecidableEq, Repr

/-- Merged-cell rectangle, with the four numbers
`openpyxl.utils.range_boundaries` returns. -/
structure MergedRange where
  min_col : Nat
  min_row : Nat
  max_col : Nat
  max_row : Nat
deriving DecidableEq, Repr

/-- Membership of a cell coordinate in a merged rectangle. -/
def MergedRange.covers (r : MergedRange) (row col : Nat) : Bool :=
  r.min_row ≤ row && row ≤ r.max_row && r.min_col ≤ col && col ≤ r.max_col

/-- Rectangle intersection test; two merged ranges of a well-formed workbook
never overlap. -/
def MergedRange.overlapsB (a b : MergedRange) : Bool :=
  a.min_row ≤ b.max_row && b.min_row ≤ a.max_row &&
  a.min_col ≤ b.max_col && b.min_col ≤ a.max_col

theorem covers_both_overlaps (a b : MergedRange) (row col : Nat)
    (ha : a.covers row col = true) (hb : b.covers row col = true) :
    a.overlapsB b = true := by
  simp only [MergedRange.covers, Bool.and_eq_true, decide_eq_true_eq] at ha hb
  simp only [MergedRange.overlapsB, Bool.and_eq_true, decide_eq_true_eq]
  omega

/-- Worksheet: a title, the dimensions traversed by `iter_rows()`, a total
cell-value assignment (rows and columns are 1-based), and the merged ranges.
`val` is total because `openpyxl` materialises any addressed cell, empty
cells holding `None`. -/
structure Sheet where
  title : String
  nrows : Nat
  ncols : Nat
  val : Nat → Nat → CellVal
  merged : List MergedRange

/-- Model of `create_merged_cell_lookup`: for every merged range of the sheet,
record the range together with the value of its top-left cell. -/
def create_merged_cell_lookup (sheet : Sheet) : List (MergedRange × CellVal) :=
  sheet.merged.map fun cell_group =>
    (cell_group, sheet.val cell_group.min_row cell_group.min_col)

/-- Writing one value over a whole rectangle — the inner
`for row in sheet.iter_rows(...): for cell in row: cell.value = ...` loop. -/
def writeRange (f : Nat → Nat → CellVal) (r : MergedRange) (v : CellVal) :
    Nat → Nat → CellVal :=
  fun row col => if r.covers row col then v else f row col

/-- Per-sheet body of `unmerge_cell_copy_top_value`: build the lookup, then
unmerge every range and copy its stored top-left value over the rectangle. -/
def unmergeSheet (sheet : Sheet) : Sheet :=
  let lookup := create_merged_cell_lookup sheet
  { sheet with
    val := lookup.foldl (fun f rv => writeRange f rv.1 rv.2) sheet.val
    merged := [] }

/-- Model of `unmerge_cell_copy_top_value` (the workbook is already loaded;
file I/O and the optional save are outside the model). -/
def unmerge_cell_copy_top_value (wbook : List Sheet) : List Sheet :=
  wbook.map unmergeSheet

theorem foldl_writeRange_not_covered
    (l : List (MergedRange × CellVal)) (f : Nat → Nat → CellVal)
    (row col : Nat) (h : ∀ rv ∈ l, rv.1.covers row col = false) :
    (l.foldl (fun g rv => writeRange g rv.1 rv.2) f) row col = f row col := by
  induction l generalizing f with
  | nil => rfl
  | cons rv t ih =>
    have hrv := h rv (List.mem_cons_self rv t)
    have ht := fun x hx => h x (List.mem_cons_of_mem rv hx)
    rw [List.foldl_cons, ih (writeRange f rv.1 rv.2) ht, writeRange, hrv]
    simp

theorem foldl_writeRange_covered
    (l : List (MergedRange × CellVal)) (r0 : MergedRange) (v0 : CellVal)
    (row col : Nat)
    (hmem : (r0, v0) ∈ l)
    (hcov : r0.covers row col = true)
    (hdisj : l.Pairwise fun a b => a.1.overlapsB b.1 = false) :
    ∀ f, (l.foldl (fun g rv => writeRange g rv.1 rv.2) f) row col = v0 := by
  induction l with
  | nil => exact absurd hmem (List.not_mem_nil _)
  | cons rv t ih =>
    intro f
    rcases List.pairwise_cons.mp hdisj with ⟨hhead, htail⟩
    rcases List.mem_cons.mp hmem with rfl | hmem2
    · have hnone : ∀ x ∈ t, x.1.covers row col = false := by
        intro x hx
        by_contra hx2
        rw [Bool.not_eq_false] at hx2
        have := covers_both_overlaps r0 x.1 row col hcov hx2
        rw [hhead x hx] at this
        cases this
      rw [List.foldl_cons, foldl_writeRange_not_covered t _ row col hnone,
        writeRange, hcov]
      simp
    · exact ih hmem2 htail (writeRange f rv.1 rv.2)

/-- C2: after merge normalisation, every cell of a previously merged
rectangle holds the value that was stored at the rectangle's top-left cell,
and no sheet of the returned workbook retains any merged range.  The
hypothesis that the merged rectangles of a sheet are pairwise
non-overlapping is an invariant of every workbook `openpyxl` can load. -/
theorem unmerge_copies_top_left (wbook : List Sheet)
    (hdisj : ∀ s ∈ wbook, s.merged.Pairwise fun a b => a.overlapsB b = false) :
    (∀ t ∈ unmerge_cell_copy_top_value wbook, t.merged = []) ∧
    (∀ (i : Nat) (s : Sheet), wbook[i]? = some s → ∀ r ∈ s.merged, ∀ row col,
      r.covers row col = true →
      ((unmerge_cell_copy_top_value wbook)[i]?.map fun t => t.val row col) =
        some (s.val r.min_row r.min_col)) := by
  constructor
  · intro t ht
    rcases List.mem_map.mp ht with ⟨s, _, rfl⟩
    rfl
  · intro i s hs r hr row col hcov
    have hmap : (unmerge_cell_copy_top_value wbook)[i]? = some (unmergeSheet s) := by
      simp [unmerge_cell_copy_top_value, List.getElem?_map, hs]
    rw [hmap]
    simp only [Option.map_some']
    have hsmem : s ∈ wbook := List.getElem?_mem hs
    have hd := hdisj s hsmem
    have hdl : (create_merged_cell_lookup s).Pairwise
        fun a b => a.1.overlapsB b.1 = false := by
      unfold create_merged_cell_lookup
      exact List.pairwise_map.mpr hd
    have hlmem : (r, s.val r.min_row r.min_col) ∈ create_merged_cell_lookup s :=
      List.mem_map.mpr ⟨r, hr, rfl⟩
    exact congrArg some
      (foldl_writeRange_covered (create_merged_cell_lookup s) r
        (s.val r.min_row r.min_col) row col hlmem hcov hdl s.val)

/-- Fixture sheet for the merge-normalisation witnesses: a 4×4 sheet whose
cells hold their coordinates as text, with one 2×3 merged rectangle. -/
def mergeFixSheet : Sheet :=
  { title := "Feuil1"
    nrows := 4
    ncols := 4
    val := fun row col => CellVal.str (natToS (10 * row + col))
    merged := [⟨2, 1, 4, 2⟩] }

/-- Fixture workbook around `mergeFixSheet`. -/
def mergeFixWb : List Sheet := [mergeFixSheet]

/-- Witness for C2 at a concrete workbook: cell `(2, 3)` of the merged
rectangle `B1:D2` receives the top-left value `"12"`, via the theorem. -/
theorem unmerge_copies_top_left_witness :
    ((unmerge_cell_copy_top_value mergeFixWb)[0]?.map fun t => t.val 2 3) =
      some (mergeFixSheet.val 1 2) :=
  (unmerge_copies_top_left mergeFixWb
    (by intro s hs; rcases List.mem_singleton.mp hs with rfl; decide)).2
    0 mergeFixSheet rfl ⟨2, 1, 4, 2⟩ (by decide) 2 3 (by decide)

/-- C10: merge normalisation never changes a cell lying in none of the
sheet's source merged rectangles. -/
theorem unmerge_frame_outside_ranges (wbook : List Sheet) (i : Nat)
    (s : Sheet) (row col : Nat)
    (hs : wbook[i]? = some s)
    (hout : ∀ r ∈ s.merged, r.covers row col = false) :
    ((unmerge_cell_copy_top_value wbook)[i]?.map fun t => t.val row col) =
      some (s.val row col) := by
  have hmap : (unmerge_cell_copy_top_value wbook)[i]? = some (unmergeSheet s) := by
    simp [unmerge_cell_copy_top_value, List.getElem?_map, hs]
  rw [hmap]
  simp only [Option.map_some']
  have hl : ∀ rv ∈ create_merged_cell_lookup s, rv.1.covers row col = false := by
    intro rv hrv
    rcases List.mem_map.mp hrv with ⟨r, hr, rfl⟩
    exact hout r hr
  exact congrArg some
    (foldl_writeRange_not_covered (create_merged_cell_lookup s) s.val row col hl)

/-- Witness for C10: cell `(3, 4)` lies outside the fixture's merged
rectangle and keeps its source value. -/
theorem unmerge_frame_outside_ranges_witness :
    ((unmerge_cell_copy_top_value mergeFixWb)[0]?.map fun t => t.val 3 4) =
      some (mergeFixSheet.val 3 4) :=
  unmerge_frame_outside_ranges mergeFixWb 0 mergeFixSheet 3 4 rfl (by decide)

/-! ### Grid text search (`search_string_in_worksheet` / `..._workbook`) -/

/-- Search-result triple `[sheet.title, cell.coordinate, cell.value]`. -/
structure Occ where
  sheetTitle : String
  coordinate : String
  text : String
deriving DecidableEq, Repr

/-- Per-cell decision of the search loop: the Python guard
`if cell.value and isinstance(cell.value, str): if search_string in cell.value`
and the triple it appends.  Note Python truthiness: an empty string is falsy,
so a cell holding `""` is skipped before the `isinstance` test. -/
def cellHit (sheet : Sheet) (search : String) (row col : Nat) : Option Occ :=
  match sheet.val row col with
  | CellVal.str s =>
    if s ≠ "" && strContains s search then
      some ⟨sheet.title, coordStr row col, s⟩
    else none
  | _ => none

/-- Appending an optional hit to the accumulated result list
(`search_results.append([...])` guarded by the cell test). -/
def appendHit (acc : List Occ) (o : Option Occ) : List Occ :=
  match o with
  | some occ => acc ++ [occ]
  | none => acc

/-- Model of `search_string_in_worksheet`: `sheet.iter_rows()` traverses the
sheet dimension row-major; matches are appended in visit order. -/
def search_string_in_worksheet (sheet : Sheet) (search : String) : List Occ :=
  (List.range' 1 sheet.nrows).foldl (fun acc row =>
    (List.range' 1 sheet.ncols).foldl (fun acc2 col =>
      appendHit acc2 (cellHit sheet search row col)) acc) []

/-- Model of `search_string_in_workbook`: concatenate the per-sheet results
in worksheet order. -/
def search_string_in_workbook (wbook : List Sheet) (search : String) : List Occ :=
  wbook.foldl (fun acc sheet => acc ++ search_string_in_worksheet sheet search) []

/-- Specification-side description of one sheet's matches: row-major
traversal of the dimension keeping the hit cells. -/
def sheetTriples (sheet : Sheet) (search : String) : List Occ :=
  (List.range' 1 sheet.nrows).flatMap fun row =>
    (List.range' 1 sheet.ncols).filterMap fun col => cellHit sheet search row col

/-- Specification-side description of the workbook search: sheets in order,
each contributing its row-major matches. -/
def specSearchTriples (wbook : List Sheet) (search : String) : List Occ :=
  wbook.flatMap fun sheet => sheetTriples sheet search

theorem foldl_appendHit (f : Nat → Option Occ) :
    ∀ (l : List Nat) (acc : List Occ),
    (l.foldl (fun a x => appendHit a (f x)) acc) = acc ++ l.filterMap f := by
  intro l
  induction l with
  | nil => intro acc; simp
  | cons x t ih =>
    intro acc
    rcases hx : f x with _ | b
    · simp only [List.foldl_cons, List.filterMap_cons, hx]
      rw [show appendHit acc none = acc from rfl, ih]
    · simp only [List.foldl_cons, List.filterMap_cons, hx]
      rw [show appendHit acc (some b) = acc ++ [b] from rfl, ih]
      simp

theorem foldl_append_flatMap {α β : Type} (g : α → List β) :
    ∀ (l : List α) (acc : List β),
    (l.foldl (fun a x => a ++ g x) acc) = acc ++ l.flatMap g := by
  intro l
  induction l with
  | nil => intro acc; simp
  | cons x t ih => intro acc; simp [List.foldl_cons, ih]

theorem foldl_funext {α β : Type} (f g : β → α → β) (l : List α) (acc : β)
    (h : ∀ b a, f b a = g b a) : l.foldl f acc = l.foldl g acc := by
  have : f = g := funext fun b => funext fun a => h b a
  rw [this]

theorem search_worksheet_eq (sheet : Sheet) (search : String) :
    search_string_in_worksheet sheet search = sheetTriples sheet search := by
  unfold search_string_in_worksheet sheetTriples
  refine Eq.trans (foldl_funext
    (fun acc row => (List.range' 1 sheet.ncols).foldl (fun acc2 col =>
      appendHit acc2 (cellHit sheet search row col)) acc)
    (fun acc row => acc ++ (List.range' 1 sheet.ncols).filterMap
        (fun col => cellHit sheet search row col))
    (List.range' 1 sheet.nrows) []
    (fun acc row => foldl_appendHit
      (fun col => cellHit sheet search row col) (List.range' 1 sheet.ncols) acc)) ?_
  rw [foldl_append_flatMap]
  simp

theorem search_workbook_eq (wbook : List Sheet) (search : String) :
    search_string_in_workbook wbook search = specSearchTriples wbook search := by
  unfold search_string_in_workbook specSearchTriples
  rw [foldl_append_flatMap]
  simp only [List.nil_append]
  exact List.flatMap_congr fun sheet _ => search_worksheet_eq sheet search

theorem cellHit_eq_some (sheet : Sheet) (search : String) (row col : Nat)
    (occ : Occ) :
    cellHit sheet search row col = some occ ↔
    ∃ s, sheet.val row col = CellVal.str s ∧ s ≠ "" ∧
      strContains s search = true ∧
      occ = ⟨sheet.title, coordStr row col, s⟩ := by
  rcases hv : sheet.val row col with _ | s | d
  · simp [cellHit, hv]
  · by_cases h1 : s = ""
    · subst h1
      simp [cellHit, hv]
    · have hd : decide (s ≠ "") = true := decide_eq_true h1
      by_cases h2 : strContains s search = true
      · have hb : (decide (s ≠ "") && strContains s search) = true := by
          rw [hd, h2]
          rfl
        simp only [cellHit, hv, hb, if_true]
        constructor
        · intro h
          exact ⟨s, rfl, h1, h2, (Option.some.inj h).symm⟩
        · rintro ⟨s2, hs2, _, _, rfl⟩
          rcases CellVal.str.inj hs2 with rfl
          rfl
      · have hb : (decide (s ≠ "") && strContains s search) = false := by
          rw [hd, Bool.true_and]
          exact Bool.not_eq_true _ ▸ (Bool.eq_false_iff.mpr
            fun hcc => h2 hcc)
        simp only [cellHit, hv, hb, Bool.false_eq_true, if_false]
        constructor
        · intro h
          cases h
        · rintro ⟨s2, hs2, _, hc2, rfl⟩
          rcases CellVal.str.inj hs2 with rfl
          exact absurd hc2 h2
  · simp [cellHit, hv]

theorem mem_search_workbook (wbook : List Sheet) (search : String) (occ : Occ) :
    occ ∈ search_string_in_workbook wbook search ↔
    ∃ sheet ∈ wbook, ∃ row col s,
      1 ≤ row ∧ row ≤ sheet.nrows ∧ 1 ≤ col ∧ col ≤ sheet.ncols ∧
      sheet.val row col = CellVal.str s ∧ s ≠ "" ∧
      strContains s search = true ∧
      occ = ⟨sheet.title, coordStr row col, s⟩ := by
  rw [search_workbook_eq]
  unfold specSearchTriples sheetTriples
  simp only [List.mem_flatMap, List.mem_filterMap, List.mem_range'_1]
  constructor
  · rintro ⟨sheet, hsheet, row, hrow, col, hcol, hhit⟩
    rcases (cellHit_eq_some sheet search row col occ).mp hhit with
      ⟨s, hv, hne, hc, rfl⟩
    exact ⟨sheet, hsheet, row, col, s, hrow.1, by omega, hcol.1, by omega,
      hv, hne, hc, rfl⟩
  · rintro ⟨sheet, hsheet, row, col, s, h1, h2, h3, h4, hv, hne, hc, rfl⟩
    refine ⟨sheet, hsheet, row, ⟨h1, by omega⟩, col, ⟨h3, by omega⟩, ?_⟩
    exact (cellHit_eq_some sheet search row col _).mpr ⟨s, hv, hne, hc, rfl⟩

theorem nodup_filterMap_mem {α β : Type} (f : α → Option β) (l : List α)
    (hl : l.Nodup)
    (hinj : ∀ a ∈ l, ∀ a2 ∈ l, ∀ b, f a = some b → f a2 = some b → a = a2) :
    (l.filterMap f).Nodup := by
  induction l with
  | nil => simp
  | cons x t ih =>
    rcases List.nodup_cons.mp hl with ⟨hx, ht⟩
    have hinjt : ∀ a ∈ t, ∀ a2 ∈ t, ∀ b, f a = some b → f a2 = some b → a = a2 :=
      fun a ha a2 ha2 b h h2 =>
        hinj a (List.mem_cons_of_mem x ha) a2 (List.mem_cons_of_mem x ha2) b h h2
    rcases hfx : f x with _ | b
    · rw [List.filterMap_cons_none hfx]
      exact ih ht hinjt
    · rw [List.filterMap_cons_some hfx]
      refine List.nodup_cons.mpr ⟨?_, ih ht hinjt⟩
      intro hb
      rcases List.mem_filterMap.mp hb with ⟨a, ha, hfa⟩
      have : a = x := hinj a (List.mem_cons_of_mem x ha) x
        (List.mem_cons_self x t) b hfa hfx
      subst this
      exact hx ha

theorem coordStr_head_mixed (row col2 : Nat) (hr : 1 ≤ row)
    (h : (natToS row).data = (colLetters (col2 + 1)).data ++ l2) : False := by
  rcases hcl : (colLetters (col2 + 1)).data with _ | ⟨y, ys⟩
  · exact colLetters_ne_empty (col2 + 1) (by omega) hcl
  · rcases hnd : (natToS row).data with _ | ⟨x, xs⟩
    · exact natToS_ne_empty row hnd
    · rw [hnd, hcl] at h
      simp only [List.cons_append, List.cons.injEq] at h
      have hxd : isDigitChar x = true := by
        have := natToS_all_digit row
        rw [hnd] at this
        exact this x (List.mem_cons_self x xs)
      have hya : isAlphaChar y = true := by
        have := colLetters_all_alpha (col2 + 1)
        rw [hcl] at this
        exact this y (List.mem_cons_self y ys)
      rw [h.1] at hxd
      rw [digit_not_alpha y hxd] at hya
      cases hya

theorem coordStr_col_injective (row col col2 : Nat) (hr : 1 ≤ row)
    (h : coordStr row col = coordStr row col2) : col = col2 := by
  have hd : (colLettersAux col col ++ natDigitsAux row row)
      = (colLettersAux col2 col2 ++ natDigitsAux row row) := congrArg String.data h
  match col, col2 with
  | 0, 0 => rfl
  | 0, c2 + 1 =>
    exact absurd hd (by
      intro hcontra
      simp only [colLettersAux, List.nil_append] at hcontra
      exact coordStr_head_mixed row c2 hr hcontra)
  | c + 1, 0 =>
    exact absurd hd (by
      intro hcontra
      simp only [colLettersAux, List.append_nil] at hcontra
      exact coordStr_head_mixed row c hr hcontra.symm)
  | c + 1, c2 + 1 =>
    exact (coordStr_injective row (c + 1) row (c2 + 1) hr (by omega) hr
      (by omega) h).2

/-- Key of a search triple: the sheet name together with the coordinate. -/
def occKey (occ : Occ) : String × String :=
  (occ.sheetTitle, occ.coordinate)

theorem mem_sheetTriples (sheet : Sheet) (search : String) (occ : Occ) :
    occ ∈ sheetTriples sheet search ↔
    ∃ row col, row ∈ List.range' 1 sheet.nrows ∧
      col ∈ List.range' 1 sheet.ncols ∧
      cellHit sheet search row col = some occ := by
  unfold sheetTriples
  simp only [List.mem_flatMap, List.mem_filterMap]
  constructor
  · rintro ⟨row, hrow, col, hcol, hhit⟩
    exact ⟨row, col, hrow, hcol, hhit⟩
  · rintro ⟨row, col, hrow, hcol, hhit⟩
    exact ⟨row, hrow, col, hcol, hhit⟩

theorem key_mem_sheetTriples (sheet : Sheet) (search : String)
    (k : String × String) (hk : k ∈ (sheetTriples sheet search).map occKey) :
    k.1 = sheet.title := by
  rcases List.mem_map.mp hk with ⟨occ, hocc, rfl⟩
  rcases (mem_sheetTriples sheet search occ).mp hocc with ⟨row, col, _, _, hhit⟩
  rcases (cellHit_eq_some sheet search row col occ).mp hhit with ⟨s, _, _, _, rfl⟩
  rfl

theorem search_keys_nodup (wbook : List Sheet) (search : String)
    (htitles : (wbook.map Sheet.title).Nodup) :
    ((search_string_in_workbook wbook search).map occKey).Nodup := by
  rw [search_workbook_eq]
  unfold specSearchTriples
  rw [List.map_flatMap]
  rw [List.nodup_flatMap]
  constructor
  · intro sheet hsheet
    unfold sheetTriples
    rw [List.map_flatMap]
    rw [List.nodup_flatMap]
    constructor
    · intro row hrow
      have hrow1 : 1 ≤ row := (List.mem_range'_1.mp hrow).1
      rw [List.map_filterMap]
      apply nodup_filterMap_mem
      · exact List.nodup_range' 1 sheet.ncols
      · intro col hcol col2 hcol2 k hk hk2
        rcases Option.map_eq_some'.mp hk with ⟨occ, hocc, hkey⟩
        rcases Option.map_eq_some'.mp hk2 with ⟨occ2, hocc2, hkey2⟩
        rcases (cellHit_eq_some sheet search row col occ).mp hocc with
          ⟨s, _, _, _, rfl⟩
        rcases (cellHit_eq_some sheet search row col2 occ2).mp hocc2 with
          ⟨s2, _, _, _, rfl⟩
        have hco : coordStr row col = coordStr row col2 := by
          have h5 := hkey.trans hkey2.symm
          simpa [occKey, Prod.ext_iff] using h5
        exact coordStr_col_injective row col col2 hrow1 hco
    · have hlt := List.pairwise_lt_range' 1 sheet.nrows
      refine hlt.imp_of_mem ?_
      intro r1 r2 h1 h2 hlt12 k hk1 hk2
      have h1b : 1 ≤ r1 := (List.mem_range'_1.mp h1).1
      have h2b : 1 ≤ r2 := (List.mem_range'_1.mp h2).1
      rcases List.mem_map.mp hk1 with ⟨occ, hocc, rfl⟩
      rcases List.mem_filterMap.mp hocc with ⟨col, hcol, hhit⟩
      rcases List.mem_map.mp hk2 with ⟨occ2, hocc2, hkey2⟩
      rcases List.mem_filterMap.mp hocc2 with ⟨col2, hcol2, hhit2⟩
      rcases (cellHit_eq_some sheet search r1 col occ).mp hhit with
        ⟨s, _, _, _, rfl⟩
      rcases (cellHit_eq_some sheet search r2 col2 occ2).mp hhit2 with
        ⟨s2, _, _, _, rfl⟩
      have hco : coordStr r1 col = coordStr r2 col2 := by
        have := congrArg Prod.snd hkey2
        simpa [occKey] using this.symm
      have := (coordStr_injective r1 col r2 col2 h1b
        (List.mem_range'_1.mp hcol).1 h2b (List.mem_range'_1.mp hcol2).1 hco).1
      omega
  · have hp : wbook.Pairwise fun a b => a.title ≠ b.title :=
      List.pairwise_map.mp htitles
    refine hp.imp ?_
    intro s1 s2 hne k hk1 hk2
    have e1 := key_mem_sheetTriples s1 search k hk1
    have e2 := key_mem_sheetTriples s2 search k hk2
    exact hne (e1.symm.trans e2)

/-- Fixture for the C9 counterexample: one sheet whose single cell holds the
empty text. -/
def emptyCellSheet : Sheet :=
  { title := "Sheet1"
    nrows := 1
    ncols := 1
    val := fun _ _ => CellVal.str ""
    merged := [] }

/-- C9 counterexample: cell `A1` holds the textual value `""`, which contains
the search string `""` as a substring, yet the search returns no triple at
all — Python's truthiness test `if cell.value and ...` skips empty strings,
so the claim's "exactly the textual cells containing the search string" fails
on empty text cells. -/
theorem search_skips_empty_text_cell :
    search_string_in_workbook [emptyCellSheet] "" = [] ∧
    emptyCellSheet.val 1 1 = CellVal.str "" ∧
    strContains "" "" = true ∧
    (⟨"Sheet1", "A1", ""⟩ : Occ) ∉ search_string_in_workbook [emptyCellSheet] "" := by
  refine ⟨by decide, rfl, by decide, ?_⟩
  intro h
  rw [show search_string_in_workbook [emptyCellSheet] "" = [] from by decide] at h
  cases h

/-- C9 (amended): the grid text search returns exactly the
`(sheet, coordinate, value)` triples whose cell value is textual, non-empty
(Python truthiness skips `""` cells) and contains the search string as a
case-sensitive unanchored substring, listed in sheet order and row-major
order within each sheet, and — provided the sheet titles are distinct, as in
any real workbook — no `(sheet, coordinate)` pair appears twice. -/
theorem search_exactly_nonempty_textual_matches :
    (∀ (wbook : List Sheet) (search : String),
      search_string_in_workbook wbook search = specSearchTriples wbook search) ∧
    (∀ (wbook : List Sheet) (search : String) (occ : Occ),
      occ ∈ search_string_in_workbook wbook search ↔
      ∃ sheet ∈ wbook, ∃ row col s,
        1 ≤ row ∧ row ≤ sheet.nrows ∧ 1 ≤ col ∧ col ≤ sheet.ncols ∧
        sheet.val row col = CellVal.str s ∧ s ≠ "" ∧
        strContains s search = true ∧
        occ = ⟨sheet.title, coordStr row col, s⟩) ∧
    (∀ (wbook : List Sheet) (search : String),
      (wbook.map Sheet.title).Nodup →
      ((search_string_in_workbook wbook search).map occKey).Nodup) :=
  ⟨search_workbook_eq, mem_search_workbook, search_keys_nodup⟩

/-- Witness for the amended C9 at a concrete workbook: the merge fixture has
distinct sheet titles, so the search result carries pairwise distinct
`(sheet, coordinate)` keys. -/
theorem search_exactly_nonempty_textual_matches_witness :
    ((search_string_in_workbook mergeFixWb "1").map occKey).Nodup :=
  search_exactly_nonempty_textual_matches.2.2 mergeFixWb "1" (by decide)

/-! ### Exceptions, dates, and the hardcoded tables -/

/-- Lift an optional value into `Except`, the message naming the Python
exception the `None` case raises. -/
def exceptOfOption {α : Type} (o : Option α) (msg : String) : Except String α :=
  match o with
  | some a => Except.ok a
  | none => Except.error msg

/-- Loop body runner for the extraction loops: process the items in order,
collect the produced events, skip the `none` results (`continue`), and abort
on the first error, as a raised exception would. -/
def runLoopFilter {α β : Type} (f : α → Except String (Option β)) :
    List α → Except String (List β)
  | [] => Except.ok []
  | x :: xs =>
    match f x with
    | Except.error e => Except.error e
    | Except.ok ob =>
      match runLoopFilter f xs with
      | Except.error e => Except.error e
      | Except.ok rest =>
        match ob with
        | some b => Except.ok (b :: rest)
        | none => Except.ok rest

/-- Loop runner without a skip case (the single-sheet extractor appends an
event for every occurrence). -/
def runLoopAll {α β : Type} (f : α → Except String β) :
    List α → Except String (List β)
  | [] => Except.ok []
  | x :: xs =>
    match f x with
    | Except.error e => Except.error e
    | Except.ok b =>
      match runLoopAll f xs with
      | Except.error e => Except.error e
      | Except.ok rest => Except.ok (b :: rest)

/-- Worksheet lookup by name, `wbook[title]`; `KeyError` when absent. -/
def findSheetE (wbook : List Sheet) (title : String) : Except String Sheet :=
  match wbook.find? (fun s => s.title == title) with
  | some s => Except.ok s
  | none => Except.error "KeyError: worksheet not found"

/-- Cell read by A1-style coordinate, `ws[pos].value`. -/
def cellAtE (sheet : Sheet) (pos : String) : Except String CellVal :=
  match parseCoordL pos.data with
  | some cr => Except.ok (sheet.val cr.2 cr.1)
  | none => Except.error "ValueError: invalid coordinate"

/-- Require a textual value (calling a `str` method such as `.split` or
`.strip` on `None` or a datetime raises `AttributeError`). -/
def asStrE (v : CellVal) (msg : String) : Except String String :=
  match v with
  | CellVal.str s => Except.ok s
  | _ => Except.error msg

/-- Require a date value (adding a `timedelta` to `None` or to text raises
`TypeError`). -/
def asDateE (v : CellVal) (msg : String) : Except String NaiveDT :=
  match v with
  | CellVal.date d => Except.ok d
  | _ => Except.error msg

/-- Gregorian leap-year rule, as `datetime` implements it. -/
def isLeapYear (y : Nat) : Bool :=
  (y % 4 = 0 && y % 100 ≠ 0) || y % 400 = 0

/-- Number of days of a month. -/
def daysInMonth (y m : Nat) : Nat :=
  if m = 2 then (if isLeapYear y then 29 else 28)
  else if m = 4 || m = 6 || m = 9 || m = 11 then 30
  else 31

/-- Calendar successor day. -/
def nextDay (d : NaiveDT) : NaiveDT :=
  if d.day < daysInMonth d.year d.month then { d with day := d.day + 1 }
  else if d.month < 12 then { d with month := d.month + 1, day := 1 }
  else { d with year := d.year + 1, month := 1, day := 1 }

/-- Model of `date + timedelta(days=n)` for a non-negative day count. -/
def addDays (d : NaiveDT) : Nat → NaiveDT
  | 0 => d
  | n + 1 => addDays (nextDay d) n

/-- Localised date-time: `pytz.timezone('Europe/Paris').localize(dt)` attaches
the zone to the unchanged wall-clock fields. -/
structure LocalDT where
  dt : NaiveDT
  tz : String
deriving DecidableEq, Repr

/-- Attach the Europe/Paris civil zone to a naive wall-clock date-time. -/
def tzLocalizeParis (d : NaiveDT) : LocalDT :=
  ⟨d, "Europe/Paris"⟩

/-- Event dictionary produced by the spreadsheet extractors. -/
structure ExEvent where
  summary : String
  dtstart : LocalDT
  dtend : LocalDT
deriving DecidableEq, Repr

/-- Slot table of `extract_schedule_by_group_EI1`:
`{"M1": ["08:00","10:00"], "M2": ["10:15","12:15"], "S1": ["13:45","15:45"],
"S2": ["16:00","18:00"]}`. -/
def class_slots_EI1 (slot : String) : Option (String × String) :=
  if slot = "M1" then some ("08:00", "10:00")
  else if slot = "M2" then some ("10:15", "12:15")
  else if slot = "S1" then some ("13:45", "15:45")
  else if slot = "S2" then some ("16:00", "18:00")
  else none

/-- Slot table of `extract_schedule_1sheet_format`:
`{"M1": [[8,0],[10,0]], "M2": [[10,15],[12,15]], "S1": [[13,45],[15,45]],
"S2": [[16,0],[18,0]]}`. -/
def class_slots_1s (slot : String) : Option ((Nat × Nat) × (Nat × Nat)) :=
  if slot = "M1" then some ((8, 0), (10, 0))
  else if slot = "M2" then some ((10, 15), (12, 15))
  else if slot = "S1" then some ((13, 45), (15, 45))
  else if slot = "S2" then some ((16, 0), (18, 0))
  else none

/-- Weekday shift table
`{"Lundi": 0, "Mardi": 1, "Mercredi": 2, "Jeudi": 3, "Vendredi": 4}`, looked
up with the raw cell value (a non-text or unknown value is a `KeyError`). -/
def jourToDayshift (v : CellVal) : Option Nat :=
  match v with
  | CellVal.str s =>
    if s = "Lundi" then some 0
    else if s = "Mardi" then some 1
    else if s = "Mercredi" then some 2
    else if s = "Jeudi" then some 3
    else if s = "Vendredi" then some 4
    else none
  | _ => none

/-- Numeric field of `strptime`: 1 to `maxLen` digits whose value lies in
`[lo, hi]`, as the CPython `_strptime` regexes accept them. -/
def parseNumField (l : List Char) (maxLen lo hi : Nat) : Option Nat :=
  if 1 ≤ l.length && l.length ≤ maxLen && l.all isDigitChar &&
      lo ≤ digitsVal l && digitsVal l ≤ hi then some (digitsVal l) else none

/-- Model of `datetime.strptime(s, "%d/%m/%y %H:%M")`: day and month of one
or two digits, a two-digit year (69..99 maps to the 1900s, 00..68 to the
2000s), hour and minute, and the day checked against the month length. -/
def strptimeDMYHM (s : String) : Option NaiveDT :=
  match splitOnChar ' ' s.data with
  | [datePart, timePart] =>
    match splitOnChar '/' datePart, splitOnChar ':' timePart with
    | [dcs, mcs, ycs], [hcs, mics] =>
      match parseNumField dcs 2 1 31, parseNumField mcs 2 1 12,
            parseNumField hcs 2 0 23, parseNumField mics 2 0 59 with
      | some d, some m, some hh, some mi =>
        if ycs.length = 2 && ycs.all isDigitChar then
          let yy := digitsVal ycs
          let year := if yy ≤ 68 then 2000 + yy else 1900 + yy
          if d ≤ daysInMonth year m then some ⟨year, m, d, hh, mi⟩ else none
        else none
      | _, _, _, _ => none
    | _, _ => none
  | _ => none

/-- Model of `clean_text`: replace newline, tab, and carriage return by a
space, collapse whitespace runs (`re.sub(r"\s+", " ", ...)`), and strip. -/
def mapNlTabCr (c : Char) : Char :=
  if c = '\n' || c = '\t' || c = '\r' then ' ' else c

/-- Collapse maximal whitespace runs to a single space; the flag records
whether the previous character belonged to a run already emitted. -/
def collapseWSRun : Bool → List Char → List Char
  | _, [] => []
  | prevWS, c :: rest =>
    if pyIsSpace c then
      if prevWS then collapseWSRun true rest
      else ' ' :: collapseWSRun true rest
    else c :: collapseWSRun false rest

/-- Whitespace normalisation used for the single-sheet summaries. -/
def clean_text (text : String) : String :=
  pyStrip (String.mk (collapseWSRun false (text.data.map mapNlTabCr)))

/-- Parse a (possibly negative) decimal integer, Python's `int(s)` on the
inputs the code passes. -/
def parseIntS (s : String) : Option Int :=
  match s.data with
  | '-' :: rest =>
    if !rest.isEmpty && rest.all isDigitChar then some (-(digitsVal rest : Int))
    else none
  | l =>
    if !l.isEmpty && l.all isDigitChar then some (digitsVal l : Int)
    else none

/-- Decimal rendering of an integer, Python's `str(i)`. -/
def intToS (i : Int) : String :=
  if i < 0 then "-" ++ natToS i.natAbs else natToS i.toNat

/-! ### Per-group extractor (`extract_schedule_by_group_EI1`) -/

/-- Group-row loop cell test:
`if cell.value and isinstance(cell.value, str): if group_name in cell.value`
on the label column B. -/
def labelMatches (sheet : Sheet) (group_name : String) (r : Nat) : Bool :=
  match sheet.val r 2 with
  | CellVal.str s => (decide (s ≠ "")) && strContains s group_name
  | _ => false

/-- Model of the group-row scan
`for row in wbook.worksheets[0].iter_rows(min_col=2, min_row=4, max_col=2,
max_row=20)`: the last matching row (as text) wins; `none` models the
never-assigned variable (`NameError` on first use). -/
def findGroupsRow (sheet : Sheet) (group_name : String) : Option String :=
  (List.range' 4 17).foldl
    (fun acc r => if labelMatches sheet group_name r then some (natToS r) else acc)
    none

/-- The filter of the occurrence loop:
`if occ[1][1:] != groups_row or occ[2].split()[1][:2] not in course_type:
continue`.  The `or` short-circuits, so the (possibly failing) token access
only happens when the row part matches; the result is `ok true` exactly for
accepted occurrences. -/
def acceptOccEI1 (groups_row course_type coordinate text : String) :
    Except String Bool :=
  if dropChars 1 coordinate ≠ groups_row then Except.ok false
  else
    match (pySplit text)[1]? with
    | none => Except.error "IndexError: list index out of range"
    | some tok => Except.ok (strContains course_type (takeChars 2 tok))

/-- Loop body of `extract_schedule_by_group_EI1` for one occurrence: the
filter, then the date from row 3 and the slot from row 4 of the column named
by the coordinate's first character, `strptime` of `date` plus the slot
times, and localisation. -/
def processOccEI1 (wbook : List Sheet) (group_name course_type : String)
    (groups_rowOpt : Option String) (occ : Occ) :
    Except String (Option ExEvent) := do
  let groups_row ← exceptOfOption groups_rowOpt
    "NameError: name groups_row is not defined"
  let accepted ← acceptOccEI1 groups_row course_type occ.coordinate occ.text
  if !accepted then
    return none
  else
    let date_pos := takeChars 1 occ.coordinate ++ "3"
    let sheet ← findSheetE wbook occ.sheetTitle
    let dateCell ← cellAtE sheet date_pos
    let dateS ← asStrE dateCell "AttributeError: value has no attribute split"
    let date ← exceptOfOption (pySplit dateS)[1]?
      "IndexError: list index out of range"
    let slot_pos := takeChars 1 occ.coordinate ++ "4"
    let slotCell ← cellAtE sheet slot_pos
    let slotS ← asStrE slotCell "AttributeError: value has no attribute strip"
    let slot := pyStrip slotS
    let times ← exceptOfOption (class_slots_EI1 slot) "KeyError: invalid slot"
    let d1 ← exceptOfOption (strptimeDMYHM (date ++ " " ++ times.1))
      "ValueError: time data does not match format"
    let d2 ← exceptOfOption (strptimeDMYHM (date ++ " " ++ times.2))
      "ValueError: time data does not match format"
    return some { summary := occ.text ++ " Grp " ++ group_name
                  dtstart := tzLocalizeParis d1
                  dtend := tzLocalizeParis d2 }

/-- Model of `extract_schedule_by_group_EI1` (the workbook is already
loaded and is normalised by `unmerge_cell_copy_top_value` exactly as in the
source). -/
def extract_schedule_by_group_EI1 (wb0 : List Sheet)
    (course_name group_name course_type : String) :
    Except String (List ExEvent) :=
  let wbook := unmerge_cell_copy_top_value wb0
  match wbook[0]? with
  | none => Except.error "IndexError: workbook has no worksheets"
  | some sheet0 =>
    let groups_rowOpt := findGroupsRow sheet0 group_name
    let occurences := search_string_in_workbook wbook course_name
    runLoopFilter (processOccEI1 wbook group_name course_type groups_rowOpt)
      occurences

/-! ### Single-sheet extractor (`extract_schedule_1sheet_format`) -/

/-- Loop body of `extract_schedule_1sheet_format` for one occurrence: column
letters and row digits of the match's coordinate, Monday date from the date
column, weekday from row `line_slot - 1`, slot from row `line_slot`, shifted
date plus slot times, and localisation. -/
def processOcc1s (wbook : List Sheet) (date_column line_slot : String)
    (occ : Occ) : Except String ExEvent := do
  let column_index := String.mk (occ.coordinate.data.filter isAlphaChar)
  let sheet ← findSheetE wbook occ.sheetTitle
  let date_pos := date_column ++ String.mk (occ.coordinate.data.filter isDigitChar)
  let dateCell ← cellAtE sheet date_pos
  let lsInt ← exceptOfOption (parseIntS line_slot)
    "ValueError: invalid literal for int"
  let dowCell ← cellAtE sheet (column_index ++ intToS (lsInt - 1))
  let shift ← exceptOfOption (jourToDayshift dowCell) "KeyError: unknown weekday"
  let monday ← asDateE dateCell "TypeError: unsupported operand types for +"
  let date := addDays monday shift
  let slotCell ← cellAtE sheet (column_index ++ line_slot)
  let slotS ← asStrE slotCell "AttributeError: value has no attribute strip"
  let slot := pyStrip slotS
  let times ← exceptOfOption (class_slots_1s slot) "KeyError: invalid slot"
  let dtstart := tzLocalizeParis
    { date with hour := times.1.1, minute := times.1.2 }
  let dtend := tzLocalizeParis
    { date with hour := times.2.1, minute := times.2.2 }
  return { summary := clean_text occ.text
           dtstart := dtstart
           dtend := dtend }

/-- Model of `extract_schedule_1sheet_format` (the commented-out course-type
filter of the source is absent: every occurrence is processed). -/
def extract_schedule_1sheet_format (wb0 : List Sheet)
    (course_name date_column line_slot : String) :
    Except String (List ExEvent) :=
  let wbook := unmerge_cell_copy_top_value wb0
  let occurences := search_string_in_workbook wbook course_name
  runLoopAll (processOcc1s wbook date_column line_slot) occurences

/-! ### Coordinate facts for single-letter columns -/

theorem colLettersAux_zero (fuel : Nat) : colLettersAux fuel 0 = [] := by
  cases fuel <;> rfl

theorem colLettersAux_single (col : Nat) (h1 : 1 ≤ col) (h2 : col ≤ 26) :
    colLettersAux col col = [Char.ofNat (64 + col)] := by
  match col, h1 with
  | n + 1, _ =>
    have hd : n / 26 = 0 := Nat.div_eq_of_lt (by omega)
    have hm : n % 26 = n := Nat.mod_eq_of_lt (by omega)
    show colLettersAux n (n / 26) ++ [Char.ofNat (65 + n % 26)] = _
    rw [hd, hm, colLettersAux_zero]
    simp only [List.nil_append, List.cons.injEq, and_true]
    congr 1
    omega

theorem takeChars_one_coordStr (row col : Nat) (h1 : 1 ≤ col) (h2 : col ≤ 26) :
    takeChars 1 (coordStr row col) = colLetters col := by
  unfold takeChars coordStr colLetters
  rw [colLettersAux_single col h1 h2]
  rfl

theorem dropChars_one_coordStr (row col : Nat) (h1 : 1 ≤ col) (h2 : col ≤ 26) :
    dropChars 1 (coordStr row col) = natToS row := by
  unfold dropChars coordStr natToS
  rw [colLettersAux_single col h1 h2]
  rfl

theorem cellAtE_colLetters (sheet : Sheet) (k col : Nat)
    (hk : 1 ≤ k) (hc : 1 ≤ col) :
    cellAtE sheet (colLetters col ++ natToS k) = Except.ok (sheet.val k col) := by
  unfold cellAtE
  have hdata : (colLetters col ++ natToS k).data = (coordStr k col).data := by
    rw [String.data_append]
    rfl
  rw [hdata, parseCoordL_coordStr k col hk hc]

/-! ### The group row and the acceptance test (claim C3) -/

theorem foldl_lastMatch {α : Type} (p : Nat → Bool) (g : Nat → α) :
    ∀ (l : List Nat) (acc : Option α),
    l.foldl (fun a r => if p r then some (g r) else a) acc =
    (match l.reverse.find? p with
     | some r => some (g r)
     | none => acc) := by
  intro l
  induction l with
  | nil => intro acc; rfl
  | cons x xs ih =>
    intro acc
    rw [List.foldl_cons, ih, List.reverse_cons, List.find?_append]
    rcases hf : xs.reverse.find? p with _ | r
    · simp only [hf, Option.none_or]
      rcases hp : p x with _ | _
      · simp [List.find?, hp]
      · simp [List.find?, hp]
    · simp only [hf]
      rfl

theorem find?_antitone_max (p : Nat → Bool) :
    ∀ (m : List Nat), m.Pairwise (fun a b => b < a) → ∀ r,
    m.find? p = some r →
    p r = true ∧ r ∈ m ∧ ∀ x ∈ m, p x = true → x ≤ r := by
  intro m
  induction m with
  | nil => intro _ r h; cases h
  | cons x xs ih =>
    intro hpw r h
    rcases List.pairwise_cons.mp hpw with ⟨hx, hxs⟩
    rcases hp : p x with _ | _
    · rw [List.find?_cons, hp] at h
      rcases ih hxs r h with ⟨h1, h2, h3⟩
      refine ⟨h1, List.mem_cons_of_mem x h2, ?_⟩
      intro y hy hpy
      rcases List.mem_cons.mp hy with rfl | hy2
      · rw [hp] at hpy; cases hpy
      · exact h3 y hy2 hpy
    · rw [List.find?_cons, hp] at h
      rcases Option.some.inj h with rfl
      refine ⟨hp, List.mem_cons_self x xs, ?_⟩
      intro y hy hpy
      rcases List.mem_cons.mp hy with rfl | hy2
      · exact le_refl y
      · exact le_of_lt (hx y hy2)

theorem findGroupsRow_last_match (sheet : Sheet) (group_name g : String)
    (h : findGroupsRow sheet group_name = some g) :
    ∃ r0, g = natToS r0 ∧ 4 ≤ r0 ∧ r0 ≤ 20 ∧
      labelMatches sheet group_name r0 = true ∧
      ∀ r, 4 ≤ r → r ≤ 20 → labelMatches sheet group_name r = true → r ≤ r0 := by
  unfold findGroupsRow at h
  rw [foldl_lastMatch (labelMatches sheet group_name) natToS] at h
  rcases hf : (List.range' 4 17).reverse.find? (labelMatches sheet group_name)
    with _ | r0
  · rw [hf] at h; cases h
  · rw [hf] at h
    rcases Option.some.inj h with rfl
    have hpw : ((List.range' 4 17).reverse).Pairwise (fun a b => b < a) :=
      List.pairwise_reverse.mpr (List.pairwise_lt_range' 4 17)
    rcases find?_antitone_max (labelMatches sheet group_name)
      (List.range' 4 17).reverse hpw r0 hf with ⟨h1, h2, h3⟩
    have hr0 := List.mem_range'_1.mp (List.mem_reverse.mp h2)
    refine ⟨r0, rfl, hr0.1, by omega, h1, ?_⟩
    intro r hr4 hr20 hlm
    exact h3 r (List.mem_reverse.mpr (List.mem_range'_1.mpr ⟨hr4, by omega⟩)) hlm

theorem acceptOccEI1_iff (course_type text : String) (row col r0 : Nat)
    (hr : 1 ≤ row) (hc1 : 1 ≤ col) (hc2 : col ≤ 26) :
    acceptOccEI1 (natToS r0) course_type (coordStr row col) text =
      Except.ok true ↔
    (row = r0 ∧ ∃ tok, (pySplit text)[1]? = some tok ∧
      strContains course_type (takeChars 2 tok) = true) := by
  unfold acceptOccEI1
  rw [dropChars_one_coordStr row col hc1 hc2]
  by_cases hrow : row = r0
  · subst hrow
    rw [if_neg (by simp)]
    rcases ht : (pySplit text)[1]? with _ | tok
    · simp only [ht]
      constructor
      · intro h
        exact Except.noConfusion h
      · rintro ⟨_, tok2, htok2, _⟩
        cases htok2
    · simp only [ht]
      constructor
      · intro h
        exact ⟨by trivial, tok, rfl, Except.ok.inj h⟩
      · rintro ⟨_, tok2, htok2, hcc⟩
        rcases Option.some.inj htok2 with rfl
        rw [hcc]
  · rw [if_pos (fun heq => hrow (natToS_injective heq))]
    constructor
    · intro h
      exact absurd (Except.ok.inj h) (by simp)
    · rintro ⟨hr0, _⟩
      exact absurd hr0 hrow

/-- C3 counterexample: with `groups_row = "5"` and course type `"TP"`, the
match at `D5` with text `"TP FLUID"` satisfies the claim's predicate — its
row equals `groups_row` and its FIRST token's first two characters `"TP"`
occur among the requested course types — yet the code rejects it, because
line 187 tests `occ[2].split()[1][:2]`, the SECOND whitespace token. -/
theorem accept_first_token_counterexample :
    acceptOccEI1 "5" "TP" "D5" "TP FLUID" = Except.ok false ∧
    dropChars 1 "D5" = "5" ∧
    (pySplit "TP FLUID")[0]?.map (takeChars 2) = some "TP" ∧
    strContains "TP" "TP" = true :=
  ⟨rfl, rfl, rfl, rfl⟩

/-- C3 (amended): `groups_row` is the last row among rows 4–20 of the label
column B whose text contains the group name; a match in a single-letter
column (A–Z) is accepted iff its row equals `groups_row` and the SECOND
whitespace-separated token of its text has its first two characters occurring
as a substring of the course-type string (a text with fewer than two tokens
raises an `IndexError` instead). -/
theorem accept_iff_row_and_second_token :
    (∀ (sheet : Sheet) (group_name g : String),
      findGroupsRow sheet group_name = some g →
      ∃ r0, g = natToS r0 ∧ 4 ≤ r0 ∧ r0 ≤ 20 ∧
        labelMatches sheet group_name r0 = true ∧
        ∀ r, 4 ≤ r → r ≤ 20 → labelMatches sheet group_name r = true → r ≤ r0) ∧
    (∀ (course_type text : String) (row col r0 : Nat),
      1 ≤ row → 1 ≤ col → col ≤ 26 →
      (acceptOccEI1 (natToS r0) course_type (coordStr row col) text =
        Except.ok true ↔
      (row = r0 ∧ ∃ tok, (pySplit text)[1]? = some tok ∧
        strContains course_type (takeChars 2 tok) = true))) :=
  ⟨findGroupsRow_last_match, acceptOccEI1_iff⟩

/-- Witness for the amended C3: the fixture occurrence `"FLUID TP"` at `D5`
with `groups_row = natToS 5` and course type `"TP"` is accepted. -/
theorem accept_iff_row_and_second_token_witness :
    acceptOccEI1 (natToS 5) "TP" (coordStr 5 4) "FLUID TP" = Except.ok true :=
  (accept_iff_row_and_second_token.2 "TP" "FLUID TP" 5 4 5
    (by decide) (by decide) (by decide)).mpr ⟨rfl, "TP", rfl, rfl⟩

/-! ### Fixtures for the extractor claims -/

/-- Fixture workbook for C4: group `"G1"` in `B5`, date header
`"Lundi 10/03/25"` in `D3`, slot `"M1"` in `D4`, course text `"FLUID TP"`
in `D5`. -/
def ei1FixSheet : Sheet :=
  { title := "EDT"
    nrows := 5
    ncols := 4
    val := fun row col =>
      if row = 3 && col = 4 then CellVal.str "Lundi 10/03/25"
      else if row = 4 && col = 4 then CellVal.str "M1"
      else if row = 5 && col = 2 then CellVal.str "G1"
      else if row = 5 && col = 4 then CellVal.str "FLUID TP"
      else CellVal.empty
    merged := [] }

/-- Workbook around `ei1FixSheet`. -/
def ei1FixWb : List Sheet := [ei1FixSheet]

/-- Fixture workbook for C5: weekday header `"Mercredi"` in `C1`, slot
`"S1"` in `C2`, Monday date 2025-03-10 in `A7`, course text `"PHYS"`
in `C7`. -/
def oneSheetFixSheet : Sheet :=
  { title := "Planning"
    nrows := 7
    ncols := 3
    val := fun row col =>
      if row = 1 && col = 3 then CellVal.str "Mercredi"
      else if row = 2 && col = 3 then CellVal.str "S1"
      else if row = 7 && col = 1 then CellVal.date ⟨2025, 3, 10, 0, 0⟩
      else if row = 7 && col = 3 then CellVal.str "PHYS"
      else CellVal.empty
    merged := [] }

/-- Workbook around `oneSheetFixSheet`. -/
def oneSheetFixWb : List Sheet := [oneSheetFixSheet]

/-- C4 fixture with an unknown slot code `"X9"` in `D4`. -/
def ei1BadSlotWb : List Sheet :=
  [{ ei1FixSheet with
      val := fun row col =>
        if row = 4 && col = 4 then CellVal.str "X9"
        else ei1FixSheet.val row col }]

/-- C5 fixture with an unknown weekday `"Samedi"` in `C1`. -/
def oneSheetBadDayWb : List Sheet :=
  [{ oneSheetFixSheet with
      val := fun row col =>
        if row = 1 && col = 3 then CellVal.str "Samedi"
        else oneSheetFixSheet.val row col }]

/-- C5 fixture with an unknown slot code `"S9"` in `C2`. -/
def oneSheetBadSlotWb : List Sheet :=
  [{ oneSheetFixSheet with
      val := fun row col =>
        if row = 2 && col = 3 then CellVal.str "S9"
        else oneSheetFixSheet.val row col }]

theorem asStrE_ok (v : CellVal) (m s : String) :
    asStrE v m = Except.ok s ↔ v = CellVal.str s := by
  cases v <;> simp [asStrE]

theorem asDateE_ok (v : CellVal) (m : String) (d : NaiveDT) :
    asDateE v m = Except.ok d ↔ v = CellVal.date d := by
  cases v <;> simp [asDateE]

theorem processOccEI1_ok_inversion (wbook : List Sheet)
    (g ct gr title text : String) (row col : Nat) (ev : ExEvent)
    (hr : 1 ≤ row) (hc1 : 1 ≤ col) (hc2 : col ≤ 26)
    (h : processOccEI1 wbook g ct (some gr) ⟨title, coordStr row col, text⟩ =
      Except.ok (some ev)) :
    ev.summary = text ++ " Grp " ++ g ∧
    ev.dtstart.tz = "Europe/Paris" ∧ ev.dtend.tz = "Europe/Paris" ∧
    ∃ sheet dateS dateTok slotS times,
      findSheetE wbook title = Except.ok sheet ∧
      sheet.val 3 col = CellVal.str dateS ∧
      (pySplit dateS)[1]? = some dateTok ∧
      sheet.val 4 col = CellVal.str slotS ∧
      class_slots_EI1 (pyStrip slotS) = some times ∧
      strptimeDMYHM (dateTok ++ " " ++ times.1) = some ev.dtstart.dt ∧
      strptimeDMYHM (dateTok ++ " " ++ times.2) = some ev.dtend.dt := by
  unfold processOccEI1 at h
  simp only [bind, Except.bind, exceptOfOption, pure, Except.pure] at h
  have h3pos : takeChars 1 (coordStr row col) ++ "3" = colLetters col ++ natToS 3 := by
    rw [takeChars_one_coordStr row col hc1 hc2]
    congr 1
  have h4pos : takeChars 1 (coordStr row col) ++ "4" = colLetters col ++ natToS 4 := by
    rw [takeChars_one_coordStr row col hc1 hc2]
    congr 1
  rw [h3pos, h4pos] at h
  rcases hacc : acceptOccEI1 gr ct (coordStr row col) text with e | accepted
  · rw [hacc] at h
    exact Except.noConfusion h
  rw [hacc] at h
  dsimp only at h
  rcases accepted with _ | _
  · rw [if_pos (show (!false) = true from rfl)] at h
    exact Option.noConfusion (Except.ok.inj h)
  rw [if_neg (show ¬((!true) = true) from by simp)] at h
  rcases hfs : findSheetE wbook title with e | sheet
  · rw [hfs] at h
    exact Except.noConfusion h
  rw [hfs] at h
  dsimp only at h
  rw [cellAtE_colLetters sheet 3 col (by omega) hc1] at h
  dsimp only at h
  rcases hds : asStrE (sheet.val 3 col)
      "AttributeError: value has no attribute split" with e | dateS
  · rw [hds] at h
    exact Except.noConfusion h
  rw [hds] at h
  dsimp only at h
  rcases ht : (pySplit dateS)[1]? with _ | dateTok
  · rw [ht] at h
    exact Except.noConfusion h
  rw [ht] at h
  dsimp only at h
  rw [cellAtE_colLetters sheet 4 col (by omega) hc1] at h
  dsimp only at h
  rcases hss : asStrE (sheet.val 4 col)
      "AttributeError: value has no attribute strip" with e | slotS
  · rw [hss] at h
    exact Except.noConfusion h
  rw [hss] at h
  dsimp only at h
  rcases hcs : class_slots_EI1 (pyStrip slotS) with _ | times
  · rw [hcs] at h
    exact Except.noConfusion h
  rw [hcs] at h
  dsimp only at h
  rcases hp1 : strptimeDMYHM (dateTok ++ " " ++ times.1) with _ | d1
  · rw [hp1] at h
    exact Except.noConfusion h
  rw [hp1] at h
  dsimp only at h
  rcases hp2 : strptimeDMYHM (dateTok ++ " " ++ times.2) with _ | d2
  · rw [hp2] at h
    exact Except.noConfusion h
  rw [hp2] at h
  dsimp only at h
  rcases Option.some.inj (Except.ok.inj h) with rfl
  refine ⟨rfl, rfl, rfl, sheet, dateS, dateTok, slotS, times, rfl,
    (asStrE_ok _ _ _).mp hds, ht, (asStrE_ok _ _ _).mp hss, hcs, hp1, hp2⟩

/-- C4: for every accepted match in a single-letter column, the per-group
extractor derives the date from header row 3 of the match's column (second
whitespace token, dropping the day name), the slot code from header row 4 of
the same column, and composes start/end by `strptime` of that date with the
slot's times, localised to Europe/Paris; the fixture grid with `"G1"` in row
5 and `"FLUID TP"` matched at `D5` under `"Lundi 10/03/25"` and slot `"M1"`
yields exactly one event `"FLUID TP Grp G1"` from 08:00 to 10:00 on
2025-03-10. -/
theorem pergroup_event_composition :
    (∀ (wbook : List Sheet) (g ct gr title text : String) (row col : Nat)
      (ev : ExEvent), 1 ≤ row → 1 ≤ col → col ≤ 26 →
      processOccEI1 wbook g ct (some gr) ⟨title, coordStr row col, text⟩ =
        Except.ok (some ev) →
      ev.summary = text ++ " Grp " ++ g ∧
      ev.dtstart.tz = "Europe/Paris" ∧ ev.dtend.tz = "Europe/Paris" ∧
      ∃ sheet dateS dateTok slotS times,
        findSheetE wbook title = Except.ok sheet ∧
        sheet.val 3 col = CellVal.str dateS ∧
        (pySplit dateS)[1]? = some dateTok ∧
        sheet.val 4 col = CellVal.str slotS ∧
        class_slots_EI1 (pyStrip slotS) = some times ∧
        strptimeDMYHM (dateTok ++ " " ++ times.1) = some ev.dtstart.dt ∧
        strptimeDMYHM (dateTok ++ " " ++ times.2) = some ev.dtend.dt) ∧
    extract_schedule_by_group_EI1 ei1FixWb "FLUID" "G1" "TP" =
      Except.ok [{ summary := "FLUID TP Grp G1"
                   dtstart := ⟨⟨2025, 3, 10, 8, 0⟩, "Europe/Paris"⟩
                   dtend := ⟨⟨2025, 3, 10, 10, 0⟩, "Europe/Paris"⟩ }] := by
  constructor
  · intro wbook g ct gr title text row col ev h1 h2 h3 h4
    exact processOccEI1_ok_inversion wbook g ct gr title text row col ev h1 h2 h3 h4
  · rfl

/-- Witness for C4's general conjunct: the fixture occurrence processed on
its own satisfies the inversion at row 5, column D. -/
theorem pergroup_event_composition_witness :
    processOccEI1 ei1FixWb "G1" "TP" (some "5")
        ⟨"EDT", coordStr 5 4, "FLUID TP"⟩ =
      Except.ok (some { summary := "FLUID TP Grp G1"
                        dtstart := ⟨⟨2025, 3, 10, 8, 0⟩, "Europe/Paris"⟩
                        dtend := ⟨⟨2025, 3, 10, 10, 0⟩, "Europe/Paris"⟩ }) ∧
    ({ summary := "FLUID TP Grp G1"
       dtstart := ⟨⟨2025, 3, 10, 8, 0⟩, "Europe/Paris"⟩
       dtend := ⟨⟨2025, 3, 10, 10, 0⟩, "Europe/Paris"⟩ } : ExEvent).summary =
      "FLUID TP" ++ " Grp " ++ "G1" :=
  ⟨rfl,
    (pergroup_event_composition.1 ei1FixWb "G1" "TP" "5" "EDT" "FLUID TP" 5 4
      { summary := "FLUID TP Grp G1"
        dtstart := ⟨⟨2025, 3, 10, 8, 0⟩, "Europe/Paris"⟩
        dtend := ⟨⟨2025, 3, 10, 10, 0⟩, "Europe/Paris"⟩ }
      (by decide) (by decide) (by decide) rfl).1⟩

theorem alpha_not_digit (c : Char) (h : isAlphaChar c = true) :
    isDigitChar c = false := by
  simp only [isAlphaChar, Bool.or_eq_true, Bool.and_eq_true,
    decide_eq_true_eq] at h
  simp only [isDigitChar, Bool.and_eq_false_iff, decide_eq_false_iff_not,
    not_le]
  omega

theorem coordStr_filter_alpha (row col : Nat) :
    (coordStr row col).data.filter isAlphaChar = (colLetters col).data := by
  have h1 : (coordStr row col).data =
      (colLetters col).data ++ (natToS row).data := rfl
  rw [h1, List.filter_append]
  rw [List.filter_eq_self.mpr (colLetters_all_alpha col)]
  rw [List.filter_eq_nil_iff.mpr]
  · rw [List.append_nil]
  · intro a ha
    rw [digit_not_alpha a (natToS_all_digit row a ha)]
    simp

theorem coordStr_filter_digit (row col : Nat) :
    (coordStr row col).data.filter isDigitChar = (natToS row).data := by
  have h1 : (coordStr row col).data =
      (colLetters col).data ++ (natToS row).data := rfl
  rw [h1, List.filter_append]
  rw [List.filter_eq_self.mpr (natToS_all_digit row)]
  rw [List.filter_eq_nil_iff.mpr]
  · rw [List.nil_append]
  · intro a ha
    rw [alpha_not_digit a (colLetters_all_alpha col a ha)]
    simp

theorem processOcc1s_ok_inversion (wbook : List Sheet)
    (dc ls title text : String) (row col : Nat) (ev : ExEvent)
    (hr : 1 ≤ row) (hc : 1 ≤ col)
    (h : processOcc1s wbook dc ls ⟨title, coordStr row col, text⟩ =
      Except.ok ev) :
    ev.summary = clean_text text ∧
    ev.dtstart.tz = "Europe/Paris" ∧ ev.dtend.tz = "Europe/Paris" ∧
    ∃ sheet lsI monday dowCell shift slotS times,
      findSheetE wbook title = Except.ok sheet ∧
      parseIntS ls = some lsI ∧
      cellAtE sheet (dc ++ natToS row) = Except.ok (CellVal.date monday) ∧
      cellAtE sheet (colLetters col ++ intToS (lsI - 1)) = Except.ok dowCell ∧
      jourToDayshift dowCell = some shift ∧
      cellAtE sheet (colLetters col ++ ls) = Except.ok (CellVal.str slotS) ∧
      class_slots_1s (pyStrip slotS) = some times ∧
      ev.dtstart.dt = { addDays monday shift with
                        hour := times.1.1, minute := times.1.2 } ∧
      ev.dtend.dt = { addDays monday shift with
                      hour := times.2.1, minute := times.2.2 } := by
  unfold processOcc1s at h
  simp only [bind, Except.bind, exceptOfOption, pure, Except.pure] at h
  rw [show String.mk ((coordStr row col).data.filter isAlphaChar) =
        colLetters col from by rw [coordStr_filter_alpha]] at h
  rw [show String.mk ((coordStr row col).data.filter isDigitChar) =
        natToS row from by rw [coordStr_filter_digit]] at h
  rcases hfs : findSheetE wbook title with e | sheet
  · rw [hfs] at h
    exact Except.noConfusion h
  rw [hfs] at h
  dsimp only at h
  rcases hdatec : cellAtE sheet (dc ++ natToS row) with e | dateCell
  · rw [hdatec] at h
    exact Except.noConfusion h
  rw [hdatec] at h
  dsimp only at h
  rcases hpi : parseIntS ls with _ | lsI
  · rw [hpi] at h
    exact Except.noConfusion h
  rw [hpi] at h
  dsimp only at h
  rcases hdow : cellAtE sheet (colLetters col ++ intToS (lsI - 1)) with e | dowCell
  · rw [hdow] at h
    exact Except.noConfusion h
  rw [hdow] at h
  dsimp only at h
  rcases hjs : jourToDayshift dowCell with _ | shift
  · rw [hjs] at h
    exact Except.noConfusion h
  rw [hjs] at h
  dsimp only at h
  rcases hmd : asDateE dateCell "TypeError: unsupported operand types for +"
    with e | monday
  · rw [hmd] at h
    exact Except.noConfusion h
  rw [hmd] at h
  dsimp only at h
  rcases hslotc : cellAtE sheet (colLetters col ++ ls) with e | slotCell
  · rw [hslotc] at h
    exact Except.noConfusion h
  rw [hslotc] at h
  dsimp only at h
  rcases hss : asStrE slotCell "AttributeError: value has no attribute strip"
    with e | slotS
  · rw [hss] at h
    exact Except.noConfusion h
  rw [hss] at h
  dsimp only at h
  rcases hcs : class_slots_1s (pyStrip slotS) with _ | times
  · rw [hcs] at h
    exact Except.noConfusion h
  rw [hcs] at h
  dsimp only at h
  rcases Except.ok.inj h with rfl
  have hdc2 : dateCell = CellVal.date monday := (asDateE_ok _ _ _).mp hmd
  subst hdc2
  have hsc2 : slotCell = CellVal.str slotS := (asStrE_ok _ _ _).mp hss
  subst hsc2
  exact ⟨rfl, rfl, rfl, sheet, lsI, monday, dowCell, shift, slotS, times,
    rfl, rfl, hdatec, hdow, hjs, hslotc, hcs, rfl, rfl⟩

/-- C5: for every match, the single-sheet extractor reads the Monday date
from the fixed date column at the match's row, the weekday name from row
`line_slot - 1` of the match's column (mapped through the weekday shift
table and added to the Monday date), the slot code from row `line_slot` of
the same column, and composes start/end from the shifted date and the slot's
times localised to Europe/Paris; for Monday 2025-03-10, header `"Mercredi"`
and slot `"S1"`, the event runs 13:45–15:45 on 2025-03-12. -/
theorem singlesheet_event_composition :
    (∀ (wbook : List Sheet) (dc ls title text : String) (row col : Nat)
      (ev : ExEvent), 1 ≤ row → 1 ≤ col →
      processOcc1s wbook dc ls ⟨title, coordStr row col, text⟩ =
        Except.ok ev →
      ev.summary = clean_text text ∧
      ev.dtstart.tz = "Europe/Paris" ∧ ev.dtend.tz = "Europe/Paris" ∧
      ∃ sheet lsI monday dowCell shift slotS times,
        findSheetE wbook title = Except.ok sheet ∧
        parseIntS ls = some lsI ∧
        cellAtE sheet (dc ++ natToS row) = Except.ok (CellVal.date monday) ∧
        cellAtE sheet (colLetters col ++ intToS (lsI - 1)) =
          Except.ok dowCell ∧
        jourToDayshift dowCell = some shift ∧
        cellAtE sheet (colLetters col ++ ls) = Except.ok (CellVal.str slotS) ∧
        class_slots_1s (pyStrip slotS) = some times ∧
        ev.dtstart.dt = { addDays monday shift with
                          hour := times.1.1, minute := times.1.2 } ∧
        ev.dtend.dt = { addDays monday shift with
                        hour := times.2.1, minute := times.2.2 }) ∧
    extract_schedule_1sheet_format oneSheetFixWb "PHYS" "A" "2" =
      Except.ok [{ summary := "PHYS"
                   dtstart := ⟨⟨2025, 3, 12, 13, 45⟩, "Europe/Paris"⟩
                   dtend := ⟨⟨2025, 3, 12, 15, 45⟩, "Europe/Paris"⟩ }] := by
  constructor
  · intro wbook dc ls title text row col ev h1 h2 h3
    exact processOcc1s_ok_inversion wbook dc ls title text row col ev h1 h2 h3
  · rfl

/-- Witness for C5's general conjunct: the fixture occurrence at `C7`
processed on its own satisfies the inversion. -/
theorem singlesheet_event_composition_witness :
    processOcc1s oneSheetFixWb "A" "2" ⟨"Planning", coordStr 7 3, "PHYS"⟩ =
      Except.ok { summary := "PHYS"
                  dtstart := ⟨⟨2025, 3, 12, 13, 45⟩, "Europe/Paris"⟩
                  dtend := ⟨⟨2025, 3, 12, 15, 45⟩, "Europe/Paris"⟩ } ∧
    ({ summary := "PHYS"
       dtstart := ⟨⟨2025, 3, 12, 13, 45⟩, "Europe/Paris"⟩
       dtend := ⟨⟨2025, 3, 12, 15, 45⟩, "Europe/Paris"⟩ } : ExEvent).summary =
      clean_text "PHYS" :=
  ⟨rfl,
    (singlesheet_event_composition.1 oneSheetFixWb "A" "2" "Planning" "PHYS"
      7 3
      { summary := "PHYS"
        dtstart := ⟨⟨2025, 3, 12, 13, 45⟩, "Europe/Paris"⟩
        dtend := ⟨⟨2025, 3, 12, 15, 45⟩, "Europe/Paris"⟩ }
      (by decide) (by decide) rfl).1⟩

/-! ### Failure policy of the extractors (claim C8) -/

theorem runLoopFilter_ok_mem {α β : Type} (f : α → Except String (Option β)) :
    ∀ (l : List α) (bs : List β), runLoopFilter f l = Except.ok bs →
    ∀ x ∈ l, ∃ r, f x = Except.ok r := by
  intro l
  induction l with
  | nil =>
    intro bs _ x hx
    cases hx
  | cons y ys ih =>
    intro bs h x hx
    unfold runLoopFilter at h
    rcases hf : f y with e | ob
    · rw [hf] at h
      exact Except.noConfusion h
    rw [hf] at h
    dsimp only at h
    rcases hrest : runLoopFilter f ys with e | rest
    · rw [hrest] at h
      exact Except.noConfusion h
    rcases List.mem_cons.mp hx with rfl | hx2
    · exact ⟨ob, hf⟩
    · exact ih rest hrest x hx2

theorem runLoopAll_ok_mem {α β : Type} (f : α → Except String β) :
    ∀ (l : List α) (bs : List β), runLoopAll f l = Except.ok bs →
    ∀ x ∈ l, ∃ b, f x = Except.ok b := by
  intro l
  induction l with
  | nil =>
    intro bs _ x hx
    cases hx
  | cons y ys ih =>
    intro bs h x hx
    unfold runLoopAll at h
    rcases hf : f y with e | b
    · rw [hf] at h
      exact Except.noConfusion h
    rw [hf] at h
    dsimp only at h
    rcases hrest : runLoopAll f ys with e | rest
    · rw [hrest] at h
      exact Except.noConfusion h
    rcases List.mem_cons.mp hx with rfl | hx2
    · exact ⟨b, hf⟩
    · exact ih rest hrest x hx2

/-- C8: a successful extraction call certifies that every matched occurrence
was processed without error — in particular none had an unknown slot code or
weekday name — and on concrete grids carrying an unknown slot (`"X9"`,
`"S9"`) or weekday (`"Samedi"`) both extractors abort with the
corresponding `KeyError` rather than skipping the match and returning a
result. -/
theorem unknown_slot_or_weekday_is_error :
    (∀ (wb0 : List Sheet) (cn gn ct : String) (evs : List ExEvent)
      (sheet0 : Sheet),
      extract_schedule_by_group_EI1 wb0 cn gn ct = Except.ok evs →
      (unmerge_cell_copy_top_value wb0)[0]? = some sheet0 →
      ∀ occ ∈ search_string_in_workbook (unmerge_cell_copy_top_value wb0) cn,
        ∃ r, processOccEI1 (unmerge_cell_copy_top_value wb0) gn ct
          (findGroupsRow sheet0 gn) occ = Except.ok r) ∧
    (∀ (wb0 : List Sheet) (cn dc ls : String) (evs : List ExEvent),
      extract_schedule_1sheet_format wb0 cn dc ls = Except.ok evs →
      ∀ occ ∈ search_string_in_workbook (unmerge_cell_copy_top_value wb0) cn,
        ∃ ev, processOcc1s (unmerge_cell_copy_top_value wb0) dc ls occ =
          Except.ok ev) ∧
    extract_schedule_by_group_EI1 ei1BadSlotWb "FLUID" "G1" "TP" =
      Except.error "KeyError: invalid slot" ∧
    extract_schedule_1sheet_format oneSheetBadDayWb "PHYS" "A" "2" =
      Except.error "KeyError: unknown weekday" ∧
    extract_schedule_1sheet_format oneSheetBadSlotWb "PHYS" "A" "2" =
      Except.error "KeyError: invalid slot" := by
  refine ⟨?_, ?_, rfl, rfl, rfl⟩
  · intro wb0 cn gn ct evs sheet0 hok hs0 occ hocc
    unfold extract_schedule_by_group_EI1 at hok
    dsimp only at hok
    rw [hs0] at hok
    dsimp only at hok
    exact runLoopFilter_ok_mem _ _ evs hok occ hocc
  · intro wb0 cn dc ls evs hok occ hocc
    unfold extract_schedule_1sheet_format at hok
    exact runLoopAll_ok_mem _ _ evs hok occ hocc

/-- Witness for C8: the well-formed single-sheet fixture extracts
successfully, so its (sole) occurrence processes without error. -/
theorem unknown_slot_or_weekday_is_error_witness :
    ∃ ev, processOcc1s (unmerge_cell_copy_top_value oneSheetFixWb) "A" "2"
      ⟨"Planning", coordStr 7 3, "PHYS"⟩ = Except.ok ev :=
  unknown_slot_or_weekday_is_error.2.1 oneSheetFixWb "PHYS" "A" "2"
    [{ summary := "PHYS"
       dtstart := ⟨⟨2025, 3, 12, 13, 45⟩, "Europe/Paris"⟩
       dtend := ⟨⟨2025, 3, 12, 15, 45⟩, "Europe/Paris"⟩ }]
    rfl ⟨"Planning", coordStr 7 3, "PHYS"⟩ (by decide)

/-! ### Calendar codec (`read_ics` / `df_to_ics`) -/

/-- Value of a `DTSTART`/`DTEND` property as the `icalendar` library yields
it: a timezone-aware datetime, a naive datetime (no `tzinfo`), or a bare
date.  The absolute timeline is minutes; a bare date combined with
`time.min` is minute 0 of the day and with `time.max` the last minute
(minute granularity rounds `23:59:59.999999` to 1439). -/
inductive ICSDt
  | aware (instant : Int) (tz : String)
  | naive (clock : Int)
  | dateOnly (day : Int)
deriving DecidableEq, Repr

/-- A component of the parsed calendar (`gcal.walk()` yields these). -/
structure ICSComp where
  name : String
  summary : Option String
  dtstart : Option ICSDt
  dtend : Option ICSDt
  location : Option String
  description : Option String
deriving DecidableEq, Repr

/-- Event record built by `read_ics` (one row of its output frame).  Start
and end carry the instant and the zone tag. -/
structure IcsEvent where
  summary : Option String
  dtstart : Int × String
  dtend : Int × String
  location : Option String
  description : Option String
deriving DecidableEq, Repr

/-- Start-time normalisation of `read_ics`: a naive datetime gets UTC
attached unchanged, a bare date is combined with `time.min` in UTC. -/
def resolveStart : ICSDt → Int × String
  | .aware i tz => (i, tz)
  | .naive c => (c, "UTC")
  | .dateOnly d => (d * 1440, "UTC")

/-- End-time normalisation of `read_ics`: as `resolveStart`, except a bare
date is combined with `time.max`. -/
def resolveEnd : ICSDt → Int × String
  | .aware i tz => (i, tz)
  | .naive c => (c, "UTC")
  | .dateOnly d => (d * 1440 + 1439, "UTC")

/-- Per-component body of the `read_ics` loop: only `VEVENT` components are
considered, a missing `DTSTART`/`DTEND` raises (the `try` of the source is
commented out), and a component whose start instant precedes `now` is
skipped. -/
def readComp (now : Int) (comp : ICSComp) : Except String (Option IcsEvent) :=
  if comp.name = "VEVENT" then
    match comp.dtstart with
    | none => Except.error "AttributeError: NoneType has no attribute dt"
    | some ds =>
      let s := resolveStart ds
      if s.1 < now then Except.ok none
      else
        match comp.dtend with
        | none => Except.error "AttributeError: NoneType has no attribute dt"
        | some de =>
          Except.ok (some { summary := comp.summary
                            dtstart := s
                            dtend := resolveEnd de
                            location := comp.location
                            description := comp.description })
  else Except.ok none

/-- Model of `read_ics`: walk the components, collecting future events. -/
def read_ics (comps : List ICSComp) (now : Int) :
    Except String (List IcsEvent) :=
  runLoopFilter (readComp now) comps

/-- One `VEVENT` as `df_to_ics` writes it: summary, aware start and end, and
`location`/`description` defaulted to the empty string. -/
def compOfRow (row : IcsEvent) : ICSComp :=
  { name := "VEVENT"
    summary := row.summary
    dtstart := some (ICSDt.aware row.dtstart.1 row.dtstart.2)
    dtend := some (ICSDt.aware row.dtend.1 row.dtend.2)
    location := some (row.location.getD "")
    description := some (row.description.getD "") }

/-- Model of `df_to_ics`: one `VEVENT` per row of the frame, in order. -/
def df_to_ics (df : List IcsEvent) : List ICSComp :=
  df.map compOfRow

/-- The event a round trip returns: identical summary, start and end, with
the optional fields defaulted to the empty string by the writer. -/
def normRow (e : IcsEvent) : IcsEvent :=
  { e with location := some (e.location.getD "")
           description := some (e.description.getD "") }

theorem readComp_compOfRow (now : Int) (e : IcsEvent)
    (he : ¬(e.dtstart.1 < now)) :
    readComp now (compOfRow e) = Except.ok (some (normRow e)) := by
  unfold readComp compOfRow
  rw [if_pos rfl]
  dsimp only
  simp only [resolveStart, resolveEnd]
  rw [if_neg he]
  simp [normRow]

theorem read_ics_df_to_ics (df : List IcsEvent) (now : Int)
    (h : ∀ e ∈ df, ¬(e.dtstart.1 < now)) :
    read_ics (df_to_ics df) now = Except.ok (df.map normRow) := by
  induction df with
  | nil => rfl
  | cons e t ih =>
    have he : ¬(e.dtstart.1 < now) := h e (List.mem_cons_self e t)
    have ht : ∀ x ∈ t, ¬(x.dtstart.1 < now) :=
      fun x hx => h x (List.mem_cons_of_mem e hx)
    show runLoopFilter (readComp now) (compOfRow e :: df_to_ics t) = _
    unfold runLoopFilter
    rw [readComp_compOfRow now e he]
    have ihx : runLoopFilter (readComp now) (df_to_ics t) =
        Except.ok (t.map normRow) := ih ht
    rw [ihx]
    simp

/-- C6: writing events to ICS and re-parsing with a "now" at or before every
start yields events with identical summary, start and end. -/
theorem ics_write_read_roundtrip (df : List IcsEvent) (now : Int)
    (h : ∀ e ∈ df, ¬(e.dtstart.1 < now)) :
    ∃ evs, read_ics (df_to_ics df) now = Except.ok evs ∧
      evs.map (fun e => (e.summary, e.dtstart, e.dtend)) =
        df.map (fun e => (e.summary, e.dtstart, e.dtend)) := by
  refine ⟨df.map normRow, read_ics_df_to_ics df now h, ?_⟩
  rw [List.map_map]
  rfl

/-- Fixture event for the round-trip witness. -/
def icsFixEvent : IcsEvent :=
  { summary := some "Course"
    dtstart := (100, "Europe/Paris")
    dtend := (220, "Europe/Paris")
    location := none
    description := none }

/-- Witness for C6 at a concrete event list and a "now" before the start. -/
theorem ics_write_read_roundtrip_witness :
    ∃ evs, read_ics (df_to_ics [icsFixEvent]) 50 = Except.ok evs ∧
      evs.map (fun e => (e.summary, e.dtstart, e.dtend)) =
        [icsFixEvent].map (fun e => (e.summary, e.dtstart, e.dtend)) :=
  ics_write_read_roundtrip [icsFixEvent] 50 (by decide)

theorem readComp_ok_some (now : Int) (c : ICSComp) (b : IcsEvent)
    (h : readComp now c = Except.ok (some b)) :
    c.name = "VEVENT" ∧ ∃ ds de, c.dtstart = some ds ∧ c.dtend = some de ∧
      ¬((resolveStart ds).1 < now) ∧
      b = { summary := c.summary
            dtstart := resolveStart ds
            dtend := resolveEnd de
            location := c.location
            description := c.description } := by
  unfold readComp at h
  by_cases hn : c.name = "VEVENT"
  · rw [if_pos hn] at h
    rcases hds : c.dtstart with _ | ds
    · rw [hds] at h
      exact Except.noConfusion h
    rw [hds] at h
    dsimp only at h
    by_cases hlt : (resolveStart ds).1 < now
    · rw [if_pos hlt] at h
      exact absurd (Except.ok.inj h) (by simp)
    rw [if_neg hlt] at h
    rcases hde : c.dtend with _ | de
    · rw [hde] at h
      exact Except.noConfusion h
    rw [hde] at h
    dsimp only at h
    rcases Option.some.inj (Except.ok.inj h) with rfl
    exact ⟨hn, ds, de, rfl, rfl, hlt, rfl⟩
  · rw [if_neg hn] at h
    exact absurd (Except.ok.inj h) (by simp)

/-- C7: whenever the reader returns a result, no returned event starts
strictly before `now`, every `VEVENT` whose resolved start is at or after
`now` contributes exactly its event to the output, and concretely a
component with a `DTSTART` one year (525600 minutes) in the past never
appears: parsing it alone yields the empty list. -/
theorem reader_filters_past :
    (∀ (comps : List ICSComp) (now : Int) (evs : List IcsEvent),
      read_ics comps now = Except.ok evs →
      (∀ ev ∈ evs, ¬(ev.dtstart.1 < now)) ∧
      (∀ comp ∈ comps, comp.name = "VEVENT" →
        ∀ ds, comp.dtstart = some ds → ¬((resolveStart ds).1 < now) →
        ∃ de, comp.dtend = some de ∧
          ({ summary := comp.summary
             dtstart := resolveStart ds
             dtend := resolveEnd de
             location := comp.location
             description := comp.description } : IcsEvent) ∈ evs)) ∧
    read_ics [{ name := "VEVENT"
                summary := some "Old"
                dtstart := some (ICSDt.aware (1000000 - 525600) "UTC")
                dtend := some (ICSDt.aware 1000060 "UTC")
                location := none
                description := none }] 1000000 = Except.ok [] := by
  constructor
  · intro comps
    induction comps with
    | nil =>
      intro now evs h
      rcases Except.ok.inj h with rfl
      exact ⟨fun ev hev => absurd hev (List.not_mem_nil ev),
        fun comp hc => absurd hc (List.not_mem_nil comp)⟩
    | cons c t ih =>
      intro now evs h
      unfold read_ics runLoopFilter at h
      rcases hc : readComp now c with e | ob
      · rw [hc] at h
        exact Except.noConfusion h
      rw [hc] at h
      dsimp only at h
      rcases hrest : runLoopFilter (readComp now) t with e | rest
      · rw [hrest] at h
        exact Except.noConfusion h
      rw [hrest] at h
      have hrest2 : read_ics t now = Except.ok rest := hrest
      rcases ih now rest hrest2 with ⟨ih1, ih2⟩
      rcases ob with _ | b
      · dsimp only at h
        rcases Except.ok.inj h with rfl
        refine ⟨ih1, ?_⟩
        intro comp hcm hname ds hds hlt
        rcases List.mem_cons.mp hcm with rfl | hcm2
        · exfalso
          unfold readComp at hc
          rw [if_pos hname, hds] at hc
          dsimp only at hc
          rw [if_neg hlt] at hc
          rcases hde : comp.dtend with _ | de
          · rw [hde] at hc
            exact Except.noConfusion hc
          · rw [hde] at hc
            dsimp only at hc
            exact Option.noConfusion (Except.ok.inj hc)
        · exact ih2 comp hcm2 hname ds hds hlt
      · dsimp only at h
        rcases Except.ok.inj h with rfl
        rcases readComp_ok_some now c b hc with ⟨hname, ds, de, hds, hde, hlt, rfl⟩
        constructor
        · intro ev hev
          rcases List.mem_cons.mp hev with rfl | hev2
          · exact hlt
          · exact ih1 ev hev2
        · intro comp hcm hname2 ds2 hds2 hlt2
          rcases List.mem_cons.mp hcm with rfl | hcm2
          · rcases Option.some.inj (hds.symm.trans hds2) with rfl
            exact ⟨de, hde, List.mem_cons_self _ _⟩
          · rcases ih2 comp hcm2 hname2 ds2 hds2 hlt2 with ⟨de2, hde2, hmem⟩
            exact ⟨de2, hde2, List.mem_cons_of_mem _ hmem⟩
  · rfl

/-- Witness for C7 at a concrete document: one future `VEVENT` parsed with
`now = 0` is returned, and the theorem certifies the filter properties. -/
theorem reader_filters_past_witness :
    (∀ ev ∈ [({ summary := some "Course"
                dtstart := (100, "Europe/Paris")
                dtend := (220, "Europe/Paris")
                location := some ""
                description := some "" } : IcsEvent)], ¬(ev.dtstart.1 < 0)) ∧
    (∀ comp ∈ df_to_ics [icsFixEvent], comp.name = "VEVENT" →
      ∀ ds, comp.dtstart = some ds → ¬((resolveStart ds).1 < 0) →
      ∃ de, comp.dtend = some de ∧
        ({ summary := comp.summary
           dtstart := resolveStart ds
           dtend := resolveEnd de
           location := comp.location
           description := comp.description } : IcsEvent) ∈
          [({ summary := some "Course"
              dtstart := (100, "Europe/Paris")
              dtend := (220, "Europe/Paris")
              location := some ""
              description := some "" } : IcsEvent)]) :=
  reader_filters_past.1 (df_to_ics [icsFixEvent]) 0
    [{ summary := some "Course"
       dtstart := (100, "Europe/Paris")
       dtend := (220, "Europe/Paris")
       location := some ""
       description := some "" }] rfl
